import Mathlib

/-!
# Email ingestion: the sync orchestrator, the provider clients and the repository

A shallow embedding of `internal/domain/models.go`, `internal/ingestion/provider.go`,
`internal/ingestion/service.go` and `internal/storage/duckdb.go`.

Conventions of the embedding.

* `uuid.UUID` is a natural number, `time.Time` an integer count of nanoseconds
  since the zero time `time.Time{}`, a Go `error` a value carrying its message.
* A Go method of an interface value is a function on an explicit world state `σ`
  (database contents, clock readings, generated identifiers): it returns its Go
  result together with the next world.  A Go `(v, error)` result is an `Except`,
  a bare `error` result an `Option`.
* `SyncTenant` additionally records, in call order, every Repository and
  ProviderClient call it makes with its arguments, its result and the world that
  call left behind.  Log output is not modelled; `context.Context` is only passed
  through by the source and is dropped.
* The DuckDB engine and its Go driver are outside the repository.  A table is the
  list of its rows in insertion order; a `TIMESTAMP` holds whole microseconds;
  `Appender.Flush` stores a batch whole or, at a constraint violation, fails and
  stores nothing; an `INSERT ... ON CONFLICT ... DO NOTHING` skips a row that
  meets the conflict target.  What remains open is a parameter (`Engine`).
-/

set_option autoImplicit false

namespace EmailIngestion

/-! ## Library types -/

/-- Identifier of Go type `uuid.UUID`. -/
abbrev UUID := Nat

/-- Instant of Go type `time.Time`, in nanoseconds since the zero time. -/
abbrev Time := Int

/-- The zero timestamp `time.Time{}`. -/
def zeroTime : Time := 0

/-- One hour as a `time.Duration` (nanoseconds): `time.Hour`. -/
def Hour : Int := 3600 * 1000000000

/-- Go `error` value, identified by its message. -/
structure GoError where
  msg : String
  deriving DecidableEq, Repr

/-- Go `errors.New`. -/
def errorsNew (msg : String) : GoError := ⟨msg⟩

/-! ## `internal/domain/models.go` -/

/-- Go `type Provider string`. -/
abbrev Provider := String

/-- Constant `domain.ProviderGoogle`. -/
def ProviderGoogle : Provider := "google"

/-- Constant `domain.ProviderMicrosoft`. -/
def ProviderMicrosoft : Provider := "microsoft"

/-- Go `domain.User`. -/
structure User where
  ID : UUID
  TenantID : UUID
  ExternalUserID : String
  Email : String
  Name : String
  Provider : Provider
  deriving DecidableEq, Repr

/-- Go `domain.Email`. -/
structure Email where
  ID : UUID
  TenantID : UUID
  UserID : UUID
  ExternalMessageID : String
  From : String
  To : List String
  Cc : List String
  Bcc : List String
  Subject : String
  Body : String
  ReceivedAt : Time
  Provider : Provider
  deriving DecidableEq, Repr

/-! ## The two capabilities consumed by the orchestrator -/

/-- Go interface `storage.Repository`, over a world state `σ`. -/
structure Repository (σ : Type) where
  InitSchema : σ → Option GoError × σ
  GetLastSyncTime : UUID → Provider → σ → Except GoError Time × σ
  SaveUsers : List User → σ → Option GoError × σ
  SaveEmails : List Email → σ → Option GoError × σ
  GetUsersByTenant : UUID → σ → Except GoError (List User) × σ

/-- Go interface `ingestion.ProviderClient`, over a world state `σ`. -/
structure ProviderClient (σ : Type) where
  GetUsers : UUID → σ → Except GoError (List User) × σ
  GetEmails : UUID → String → Time → σ → Except GoError (List Email) × σ

/-- Go `ingestion.Service`: the repository and the provider registry
(`map[domain.Provider]ProviderClient`, read through its lookup). -/
structure Service (σ : Type) where
  repo : Repository σ
  providers : Provider → Option (ProviderClient σ)

/-! ## The record of calls made during a sync -/

/-- Equality of Go results is decidable when equality of the values is. -/
instance instDecidableEqExcept {ε α : Type} [DecidableEq ε] [DecidableEq α] :
    DecidableEq (Except ε α)
  | .ok a, .ok b => if h : a = b then isTrue (by rw [h]) else isFalse (by intro h1; cases h1; exact h rfl)
  | .error a, .error b =>
    if h : a = b then isTrue (by rw [h]) else isFalse (by intro h1; cases h1; exact h rfl)
  | .ok _, .error _ => isFalse (by intro h; cases h)
  | .error _, .ok _ => isFalse (by intro h; cases h)

/-- One call on the Repository or on the ProviderClient: arguments and result. -/
inductive Event where
  | GetLastSyncTime (tenantID : UUID) (provider : Provider) (res : Except GoError Time)
  | GetUsers (tenantID : UUID) (res : Except GoError (List User))
  | SaveUsers (users : List User) (res : Option GoError)
  | GetUsersByTenant (tenantID : UUID) (res : Except GoError (List User))
  | GetEmails (tenantID : UUID) (externalUserID : String) (receivedAfter : Time)
      (res : Except GoError (List Email))
  | SaveEmails (emails : List Email) (res : Option GoError)
  deriving DecidableEq

/-- Whether the event is a call on the Repository. -/
def Event.isRepository : Event → Bool
  | .GetLastSyncTime _ _ _ => true
  | .SaveUsers _ _ => true
  | .GetUsersByTenant _ _ => true
  | .SaveEmails _ _ => true
  | .GetUsers _ _ => false
  | .GetEmails _ _ _ _ => false

/-- Whether the event is a call on the ProviderClient. -/
def Event.isProviderCall : Event → Bool
  | .GetUsers _ _ => true
  | .GetEmails _ _ _ _ => true
  | _ => false

/-- The error a call returned, if it returned one. -/
def Event.error? : Event → Option GoError
  | .GetLastSyncTime _ _ (.error e) => some e
  | .GetUsers _ (.error e) => some e
  | .SaveUsers _ (some e) => some e
  | .GetUsersByTenant _ (.error e) => some e
  | .GetEmails _ _ _ (.error e) => some e
  | .SaveEmails _ (some e) => some e
  | _ => none

/-- A recorded call together with the world it left behind. -/
structure Step (σ : Type) where
  ev : Event
  post : σ

/-- Outcome of one `SyncTenant` invocation: the returned `error` (`none` is Go
`nil`), the calls made in order, the world at return, and the value of the local
counter `totalEmails` at return. -/
structure Run (σ : Type) where
  err : Option GoError
  trace : List (Step σ)
  final : σ
  totalEmails : Nat

/-- The calls of a run, without the intermediate worlds. -/
def Run.events {σ : Type} (r : Run σ) : List Event := r.trace.map Step.ev

/-- Put calls made earlier in front of the record of a continuation. -/
def Run.after {σ : Type} (pre : List (Step σ)) (r : Run σ) : Run σ :=
  ⟨r.err, pre ++ r.trace, r.final, r.totalEmails⟩

/-! ## `internal/ingestion/service.go` -/

/-- The map `userMap` after `for _, u := range dbUsers { userMap[u.ExternalUserID] = u.ID }`,
read through its lookup: a later assignment to a key replaces an earlier one. -/
def buildUserMap (dbUsers : List User) : String → Option UUID :=
  dbUsers.foldl (fun m u => fun k => if k = u.ExternalUserID then some u.ID else m k)
    (fun _ => none)

/-- The assignment `emails[i].UserID = internalUserID` for every index. -/
def stampUserID (internalUserID : UUID) (emails : List Email) : List Email :=
  emails.map (fun e => { e with UserID := internalUserID })

/-- The loop `for _, u := range users { ... }` of `SyncTenant`, started in world `w`
with the counter at `totalEmails`. -/
def syncUserEmails {σ : Type} (repo : Repository σ) (client : ProviderClient σ)
    (tenantID : UUID) (userMap : String → Option UUID) (lastSyncTime : Time) :
    List User → σ → Nat → Run σ
  | [], w, totalEmails => ⟨none, [], w, totalEmails⟩
  | u :: rest, w, totalEmails =>
    match userMap u.ExternalUserID with
    | none => syncUserEmails repo client tenantID userMap lastSyncTime rest w totalEmails
    | some internalUserID =>
      match client.GetEmails tenantID u.ExternalUserID lastSyncTime w with
      | (.error err, w1) =>
        Run.after [⟨.GetEmails tenantID u.ExternalUserID lastSyncTime (.error err), w1⟩]
          (syncUserEmails repo client tenantID userMap lastSyncTime rest w1 totalEmails)
      | (.ok emails, w1) =>
        if emails.length > 0 then
          match repo.SaveEmails (stampUserID internalUserID emails) w1 with
          | (some err, w2) =>
            ⟨some err,
              [⟨.GetEmails tenantID u.ExternalUserID lastSyncTime (.ok emails), w1⟩,
               ⟨.SaveEmails (stampUserID internalUserID emails) (some err), w2⟩],
              w2, totalEmails⟩
          | (none, w2) =>
            Run.after
              [⟨.GetEmails tenantID u.ExternalUserID lastSyncTime (.ok emails), w1⟩,
               ⟨.SaveEmails (stampUserID internalUserID emails) none, w2⟩]
              (syncUserEmails repo client tenantID userMap lastSyncTime rest w2
                (totalEmails + emails.length))
        else
          Run.after [⟨.GetEmails tenantID u.ExternalUserID lastSyncTime (.ok emails), w1⟩]
            (syncUserEmails repo client tenantID userMap lastSyncTime rest w1 totalEmails)

/-- Go `(*Service).SyncTenant`. -/
def SyncTenant {σ : Type} (s : Service σ) (tenantID : UUID) (provider : Provider) (w : σ) :
    Run σ :=
  match s.providers provider with
  | none => ⟨some (errorsNew "provider not supported"), [], w, 0⟩
  | some client =>
    match s.repo.GetLastSyncTime tenantID provider w with
    | (.error err, w1) =>
      ⟨some err, [⟨.GetLastSyncTime tenantID provider (.error err), w1⟩], w1, 0⟩
    | (.ok lastSyncTime, w1) =>
      match client.GetUsers tenantID w1 with
      | (.error err, w2) =>
        ⟨some err,
          [⟨.GetLastSyncTime tenantID provider (.ok lastSyncTime), w1⟩,
           ⟨.GetUsers tenantID (.error err), w2⟩], w2, 0⟩
      | (.ok users, w2) =>
        match s.repo.SaveUsers users w2 with
        | (some err, w3) =>
          ⟨some err,
            [⟨.GetLastSyncTime tenantID provider (.ok lastSyncTime), w1⟩,
             ⟨.GetUsers tenantID (.ok users), w2⟩,
             ⟨.SaveUsers users (some err), w3⟩], w3, 0⟩
        | (none, w3) =>
          match s.repo.GetUsersByTenant tenantID w3 with
          | (.error err, w4) =>
            ⟨some err,
              [⟨.GetLastSyncTime tenantID provider (.ok lastSyncTime), w1⟩,
               ⟨.GetUsers tenantID (.ok users), w2⟩,
               ⟨.SaveUsers users none, w3⟩,
               ⟨.GetUsersByTenant tenantID (.error err), w4⟩], w4, 0⟩
          | (.ok dbUsers, w4) =>
            Run.after
              [⟨.GetLastSyncTime tenantID provider (.ok lastSyncTime), w1⟩,
               ⟨.GetUsers tenantID (.ok users), w2⟩,
               ⟨.SaveUsers users none, w3⟩,
               ⟨.GetUsersByTenant tenantID (.ok dbUsers), w4⟩]
              (syncUserEmails s.repo client tenantID (buildUserMap dbUsers) lastSyncTime
                users w4 0)

/-! ## The world of the built-in providers and of the DuckDB repository -/

/-- The library functions the source calls and the values they produce:
`uuidNew k` is the value of the `k`-th call of `uuid.New()`, `timeNow k` the
reading of the `k`-th call of `time.Now()`, `uuidString` is `uuid.UUID.String`
and `uuidParse` is `uuid.Parse` (`none` when it returns an error). -/
structure Env where
  uuidNew : Nat → UUID
  uuidString : UUID → String
  uuidParse : String → Option UUID
  timeNow : Nat → Time

/-- One row of table `emails` as `InitSchema` declares it.  A `VARCHAR` column
that holds the canonical text of a UUID is kept as the UUID.  `received_at` is a
`TIMESTAMP`: a whole number of microseconds, counted here from the zero time.
`cc_emails` and `bcc_emails` are `none` when NULL. -/
structure EmailRow where
  id : UUID
  tenant_id : UUID
  user_id : UUID
  external_message_id : String
  from_email : String
  to_emails : List String
  cc_emails : Option (List String)
  bcc_emails : Option (List String)
  subject : String
  body : String
  received_at : Int
  provider : String
  deriving DecidableEq, Repr

/-- Contents of the database behind `duckDBRepo.db`: the rows of table `users`
(its six columns are the six fields of `User`) and of table `emails`, both in
insertion order, and the error every statement fails with when the connection
is broken (`none` when it works). -/
structure DB where
  users : List User
  emails : List EmailRow
  fault : Option GoError
  deriving DecidableEq, Repr

/-- World state of the running program: the database, the number of
`uuid.New()` calls made so far and the number of `time.Now()` calls made so far. -/
structure World where
  db : DB
  uuids : Nat
  ticks : Nat
  deriving DecidableEq, Repr

/-- The value `uuid.Nil`. -/
def uuidNil : UUID := 0

/-- A call of `uuid.New()`. -/
def uuidNewCall (env : Env) (w : World) : UUID × World :=
  (env.uuidNew w.uuids, { w with uuids := w.uuids + 1 })

/-- A call of `time.Now()`. -/
def timeNowCall (env : Env) (w : World) : Time × World :=
  (env.timeNow w.ticks, { w with ticks := w.ticks + 1 })

/-! ## `internal/ingestion/provider.go` -/

/-- Go `MicrosoftUser`. -/
structure MicrosoftUser where
  ID : UUID
  Name : String
  Mail : String
  deriving DecidableEq, Repr

/-- Go `struct{ Address string }`. -/
structure MicrosoftAddress where
  Address : String
  deriving DecidableEq, Repr

/-- Go `struct{ EmailAddress struct{ Address string } }`. -/
structure MicrosoftRecipient where
  EmailAddress : MicrosoftAddress
  deriving DecidableEq, Repr

/-- Go `MicrosoftEmail`. -/
structure MicrosoftEmail where
  MessageID : String
  From : MicrosoftRecipient
  To : List MicrosoftRecipient
  Received : Time
  Subject : String
  Body : String
  deriving DecidableEq, Repr

/-- Go `GoogleUser`. -/
structure GoogleUser where
  ID : UUID
  FullName : String
  Email : String
  deriving DecidableEq, Repr

/-- Go `GoogleEmail`. -/
structure GoogleEmail where
  MessageID : String
  From : String
  To : List String
  Received : Time
  Subject : String
  Body : String
  deriving DecidableEq, Repr

/-- Go `GetMicrosoftUsers`. -/
def GetMicrosoftUsers (env : Env) (_tenantID : UUID) (w : World) :
    Except GoError (List MicrosoftUser) × World :=
  let (id1, w1) := uuidNewCall env w
  let (id2, w2) := uuidNewCall env w1
  (.ok [⟨id1, "Satya Nadella", "satya@msft.example.com"⟩,
        ⟨id2, "Phil Spencer", "phil@msft.example.com"⟩], w2)

/-- Go `GetMicrosoftEmails`. -/
def GetMicrosoftEmails (env : Env) (_userID : UUID) (_receivedAfter : Time) (w : World) :
    Except GoError (List MicrosoftEmail) × World :=
  let (now, w1) := timeNowCall env w
  (.ok [{ MessageID := "msft-123"
          From := ⟨⟨"bill@external.com"⟩⟩
          To := [⟨⟨"satya@msft.example.com"⟩⟩]
          Received := now + (-1 * Hour)
          Subject := "Urgent Invoice"
          Body := "Please pay this immediately." }], w1)

/-- Go `GetGoogleUsers`. -/
def GetGoogleUsers (env : Env) (_tenantID : UUID) (w : World) :
    Except GoError (List GoogleUser) × World :=
  let (id1, w1) := uuidNewCall env w
  (.ok [⟨id1, "Sundar Pichai", "sundar@google.example.com"⟩], w1)

/-- Go `GetGoogleEmails`. -/
def GetGoogleEmails (env : Env) (_userID : UUID) (_receivedAfter : Time) (w : World) :
    Except GoError (List GoogleEmail) × World :=
  let (now, w1) := timeNowCall env w
  (.ok [{ MessageID := "goog-456"
          From := "larry@external.com"
          To := ["sundar@google.example.com"]
          Received := now + (-2 * Hour)
          Subject := "Confidential Request"
          Body := "Buy gift cards." }], w1)

/-- The loop `for i, u := range msUsers` of `microsoftProvider.GetUsers`. -/
def microsoftUsersLoop (env : Env) (tenantID : UUID) : List MicrosoftUser → World →
    List User × World
  | [], w => ([], w)
  | u :: rest, w =>
    let (id, w1) := uuidNewCall env w
    let (users, w2) := microsoftUsersLoop env tenantID rest w1
    ({ ID := id, TenantID := tenantID, ExternalUserID := env.uuidString u.ID,
       Email := u.Mail, Name := u.Name, Provider := ProviderMicrosoft } :: users, w2)

/-- The loop `for i, e := range msEmails` of `microsoftProvider.GetEmails`
(the fields `UserID`, `Cc` and `Bcc` keep their zero values). -/
def microsoftEmailsLoop (env : Env) (tenantID : UUID) : List MicrosoftEmail → World →
    List Email × World
  | [], w => ([], w)
  | e :: rest, w =>
    let tos := e.To.map (fun rcpt => rcpt.EmailAddress.Address)
    let (id, w1) := uuidNewCall env w
    let (emails, w2) := microsoftEmailsLoop env tenantID rest w1
    ({ ID := id, TenantID := tenantID, UserID := uuidNil,
       ExternalMessageID := e.MessageID, From := e.From.EmailAddress.Address,
       To := tos, Cc := [], Bcc := [], Subject := e.Subject, Body := e.Body,
       ReceivedAt := e.Received, Provider := ProviderMicrosoft } :: emails, w2)

/-- The loop `for i, u := range gUsers` of `googleProvider.GetUsers`. -/
def googleUsersLoop (env : Env) (tenantID : UUID) : List GoogleUser → World →
    List User × World
  | [], w => ([], w)
  | u :: rest, w =>
    let (id, w1) := uuidNewCall env w
    let (users, w2) := googleUsersLoop env tenantID rest w1
    ({ ID := id, TenantID := tenantID, ExternalUserID := env.uuidString u.ID,
       Email := u.Email, Name := u.FullName, Provider := ProviderGoogle } :: users, w2)

/-- Go `NewMicrosoftProvider` with the methods of `*microsoftProvider`. -/
def NewMicrosoftProvider (env : Env) : ProviderClient World where
  GetUsers := fun tenantID w =>
    match GetMicrosoftUsers env tenantID w with
    | (.error err, w1) => (.error err, w1)
    | (.ok msUsers, w1) =>
      let (users, w2) := microsoftUsersLoop env tenantID msUsers w1
      (.ok users, w2)
  GetEmails := fun tenantID externalUserID receivedAfter w =>
    let uid := (env.uuidParse externalUserID).getD uuidNil
    match GetMicrosoftEmails env uid receivedAfter w with
    | (.error err, w1) => (.error err, w1)
    | (.ok msEmails, w1) =>
      let (emails, w2) := microsoftEmailsLoop env tenantID msEmails w1
      (.ok emails, w2)

/-- Go `NewGoogleProvider` with the methods of `*googleProvider`. -/
def NewGoogleProvider (env : Env) : ProviderClient World where
  GetUsers := fun tenantID w =>
    match GetGoogleUsers env tenantID w with
    | (.error err, w1) => (.error err, w1)
    | (.ok gUsers, w1) =>
      let (users, w2) := googleUsersLoop env tenantID gUsers w1
      (.ok users, w2)
  GetEmails := fun _tenantID _externalUserID _receivedAfter w => (.ok [], w)

/-- Go `NewService`: the registry holds the Microsoft and the Google client. -/
def NewService (env : Env) (repo : Repository World) : Service World where
  repo := repo
  providers := fun p =>
    if p = ProviderMicrosoft then some (NewMicrosoftProvider env)
    else if p = ProviderGoogle then some (NewGoogleProvider env)
    else none

/-- The assignment `service.providers[p] = client` (used by the tests to inject a client). -/
def Service.setProvider {σ : Type} (s : Service σ) (p : Provider) (client : ProviderClient σ) :
    Service σ :=
  { s with providers := fun q => if q = p then some client else s.providers q }

/-! ## `internal/storage/duckdb.go` -/

/-- The value `sql.ErrNoRows`. -/
def sqlErrNoRows : GoError := ⟨"sql: no rows in result set"⟩

/-- What the DuckDB engine and its Go driver do where the source of the
repository leaves it to them.  `timestampInRange t` tells whether the instant `t`
can be bound to a `TIMESTAMP` parameter; `flushError u` is the error
`Appender.Flush` returns when the row of `u` violates a constraint;
`commitAborted` is the result of `tx.Commit()` on a transaction that a failed
statement has aborted. -/
structure Engine where
  timestampInRange : Time → Bool
  flushError : User → GoError
  commitAborted : Option GoError

/-- The `TIMESTAMP` value stored for an instant: its whole microseconds, the
nanoseconds below one microsecond being dropped. -/
def timeToTimestamp (t : Time) : Int := t / 1000

/-- The instant a `TIMESTAMP` value is scanned back into. -/
def timestampToTime (ts : Int) : Time := ts * 1000

/-- An instant as it comes back after being stored in a `TIMESTAMP` column. -/
def truncMicro (t : Time) : Time := timestampToTime (timeToTimestamp t)

/-- Whether the row of `u` violates a constraint of table `users` against the
rows `rows`: `id` is the primary key and `(tenant_id, external_user_id,
provider)` is unique. -/
def userConflict (rows : List User) (u : User) : Bool :=
  rows.any (fun r => r.ID = u.ID ||
    (r.TenantID = u.TenantID && r.ExternalUserID = u.ExternalUserID && r.Provider = u.Provider))

/-- The first row of a batch appended in order to `rows` that violates a
constraint of table `users`, against the stored rows or against an earlier row of
the batch; `none` when the whole batch can be stored. -/
def firstViolation (rows : List User) : List User → Option User
  | [] => none
  | u :: rest => if userConflict rows u then some u else firstViolation (rows ++ [u]) rest

/-- Whether `e` meets a stored row on the conflict target of the `INSERT` of
`SaveEmails`, `(tenant_id, external_message_id, provider)`. -/
def emailTargetConflict (rows : List EmailRow) (e : Email) : Bool :=
  rows.any (fun r => r.tenant_id = e.TenantID && r.external_message_id = e.ExternalMessageID &&
    r.provider = e.Provider)

/-- Whether `e` meets a stored row on the primary key `id` of table `emails`. -/
def emailIdConflict (rows : List EmailRow) (e : Email) : Bool :=
  rows.any (fun r => r.id = e.ID)

/-- The row the `INSERT` of `SaveEmails` writes for `e`: the statement names no
`cc_emails` and no `bcc_emails` column, so these are NULL, and `received_at`
holds whole microseconds. -/
def toEmailRow (e : Email) : EmailRow :=
  { id := e.ID, tenant_id := e.TenantID, user_id := e.UserID,
    external_message_id := e.ExternalMessageID, from_email := e.From, to_emails := e.To,
    cc_emails := none, bcc_emails := none, subject := e.Subject, body := e.Body,
    received_at := timeToTimestamp e.ReceivedAt, provider := e.Provider }

/-- One `stmt.ExecContext` of the loop of `SaveEmails`, on the rows the
transaction sees and the flag telling whether the transaction is aborted.  In an
aborted transaction the statement fails.  An instant out of range fails to bind.
A row that meets the conflict target does nothing (`ON CONFLICT ... DO
NOTHING`).  A row that meets the primary key only fails and aborts the
transaction.  Any other row is added at the end.  A failure is logged and the
loop goes on. -/
def execInsert (eng : Engine) (st : List EmailRow × Bool) (e : Email) : List EmailRow × Bool :=
  if st.2 then st
  else if eng.timestampInRange e.ReceivedAt = false then st
  else if emailTargetConflict st.1 e then st
  else if emailIdConflict st.1 e then (st.1, true)
  else (st.1 ++ [toEmailRow e], false)

/-- SQL aggregate `MAX` over a column: `none` (NULL) over no rows. -/
def sqlMax : List Int → Option Int
  | [] => none
  | t :: ts => some (ts.foldl max t)

/-- The rows selected by `WHERE tenant_id = ? AND provider = ?` on `emails`. -/
def emailsOf (db : DB) (tenantID : UUID) (provider : Provider) : List EmailRow :=
  db.emails.filter (fun r => r.tenant_id = tenantID && r.provider = provider)

/-- The statement `SELECT MAX(received_at) FROM emails WHERE tenant_id = ? AND
provider = ?` scanned into a `sql.NullTime` (`none` when not `Valid`). -/
def queryMaxReceivedAt (db : DB) (tenantID : UUID) (provider : Provider) :
    Except GoError (Option Time) :=
  match db.fault with
  | some err => .error err
  | none =>
    .ok ((sqlMax ((emailsOf db tenantID provider).map (fun r => r.received_at))).map
      timestampToTime)

namespace duckDBRepo

/-- Go `(*duckDBRepo).InitSchema`: both statements are `CREATE TABLE IF NOT EXISTS`. -/
def InitSchema (db : DB) : Option GoError × DB :=
  match db.fault with
  | some err => (some err, db)
  | none => (none, db)

/-- Go `(*duckDBRepo).GetLastSyncTime`. -/
def GetLastSyncTime (db : DB) (tenantID : UUID) (provider : Provider) :
    Except GoError Time × DB :=
  match queryMaxReceivedAt db tenantID provider with
  | .error err =>
    if err ≠ sqlErrNoRows then (.error err, db) else (.ok zeroTime, db)
  | .ok none => (.ok zeroTime, db)
  | .ok (some lastTime) => (.ok lastTime, db)

/-- Go `(*duckDBRepo).SaveUsers`.  `AppendRow` only buffers the row, and with the
six arguments the source passes it does not fail; the constraints are checked by
`app.Flush()`, which stores the whole batch or, at a violation, nothing and
returns the error. -/
def SaveUsers (eng : Engine) (db : DB) (users : List User) : Option GoError × DB :=
  if users.length = 0 then (none, db)
  else
    match db.fault with
    | some err => (some err, db)
    | none =>
      match firstViolation db.users users with
      | some u => (some (eng.flushError u), db)
      | none => (none, { db with users := db.users ++ users })

/-- Go `(*duckDBRepo).SaveEmails`.  The statements run in one transaction; when
one of them has aborted it, nothing of the batch is stored and the method
returns what `tx.Commit()` returns. -/
def SaveEmails (eng : Engine) (db : DB) (emails : List Email) : Option GoError × DB :=
  if emails.length = 0 then (none, db)
  else
    match db.fault with
    | some err => (some err, db)
    | none =>
      match emails.foldl (execInsert eng) (db.emails, false) with
      | (_, true) => (eng.commitAborted, db)
      | (rows, false) => (none, { db with emails := rows })

/-- Go `(*duckDBRepo).GetUsersByTenant`. -/
def GetUsersByTenant (db : DB) (tenantID : UUID) : Except GoError (List User) × DB :=
  match db.fault with
  | some err => (.error err, db)
  | none => (.ok (db.users.filter (fun u => u.TenantID = tenantID)), db)

end duckDBRepo

/-- The `storage.Repository` implemented by `*duckDBRepo`, acting on the database
of the world. -/
def duckDB (eng : Engine) : Repository World where
  InitSchema := fun w =>
    let (r, db) := duckDBRepo.InitSchema w.db
    (r, { w with db := db })
  GetLastSyncTime := fun tenantID provider w =>
    let (r, db) := duckDBRepo.GetLastSyncTime w.db tenantID provider
    (r, { w with db := db })
  SaveUsers := fun users w =>
    let (r, db) := duckDBRepo.SaveUsers eng w.db users
    (r, { w with db := db })
  SaveEmails := fun emails w =>
    let (r, db) := duckDBRepo.SaveEmails eng w.db emails
    (r, { w with db := db })
  GetUsersByTenant := fun tenantID w =>
    let (r, db) := duckDBRepo.GetUsersByTenant w.db tenantID
    (r, { w with db := db })

/-- Example engine: it stores the instants of the first nine thousand years
after the zero time, and a commit of an aborted transaction reports that. -/
def demoEngine : Engine where
  timestampInRange := fun t => decide (0 ≤ t ∧ t < 9000 * (8766 * Hour))
  flushError := fun _ => errorsNew "Constraint Error: duplicate key"
  commitAborted := some (errorsNew "TransactionContext Error: transaction is aborted")

/-- An empty, working database (a fresh `NewDuckDBRepository`). -/
def emptyDB : DB := ⟨[], [], none⟩

/-- The world at program start with an empty database. -/
def emptyWorld : World := ⟨emptyDB, 0, 0⟩

/-- Example library: the `k`-th generated UUID is `k`, a UUID prints as that many
letters `u`, a text parses when it consists of letters `u` only, and the clock
reads `10 * Hour` at every call. -/
def demoEnv : Env where
  uuidNew := fun k => k
  uuidString := fun u => String.mk (List.replicate u 'u')
  uuidParse := fun s =>
    if s = String.mk (List.replicate s.length 'u') then some s.length else none
  timeNow := fun _ => 10 * Hour

/-! ## Test doubles (`internal/ingestion/service_test.go`) -/

/-- The answers a `MockRepository` and a `MockProviderClient` are programmed with
(`On(...).Return(...)`). -/
structure MockAnswers where
  lastSyncTime : Except GoError Time
  fetchedUsers : Except GoError (List User)
  saveUsers : Option GoError
  dbUsers : Except GoError (List User)
  getEmails : String → Except GoError (List Email)
  saveEmails : List Email → Option GoError

/-- Go `MockRepository`: every method returns its programmed answer and leaves
the world alone. -/
def MockRepository (a : MockAnswers) : Repository World where
  InitSchema := fun w => (none, w)
  GetLastSyncTime := fun _ _ w => (a.lastSyncTime, w)
  SaveUsers := fun _ w => (a.saveUsers, w)
  SaveEmails := fun emails w => (a.saveEmails emails, w)
  GetUsersByTenant := fun _ w => (a.dbUsers, w)

/-- Go `MockProviderClient`: every method returns its programmed answer and
leaves the world alone. -/
def MockProviderClient (a : MockAnswers) : ProviderClient World where
  GetUsers := fun _ w => (a.fetchedUsers, w)
  GetEmails := fun _ externalUserID _ w => (a.getEmails externalUserID, w)

/-- The service of the tests: `NewService(mockRepo)` with the mock client
injected for `provider`. -/
def mockService (a : MockAnswers) (provider : Provider) : Service World :=
  (NewService demoEnv (MockRepository a)).setProvider provider (MockProviderClient a)

/-- The answers of `TestService_SyncTenant_ProviderError`. -/
def providerErrorAnswers : MockAnswers where
  lastSyncTime := .ok zeroTime
  fetchedUsers := .error (errorsNew "API failed")
  saveUsers := none
  dbUsers := .ok []
  getEmails := fun _ => .ok []
  saveEmails := fun _ => none

/-- Fail-fast shape of a run: a Repository call that returned the error `e` is
the last call of the run, the run returns `e`, and the world at return is the
world that call left behind. -/
def Run.FailFast {σ : Type} (r : Run σ) : Prop :=
  ∀ (pre : List (Step σ)) (st : Step σ) (post : List (Step σ)) (e : GoError),
    r.trace = pre ++ st :: post → st.ev.isRepository = true → st.ev.error? = some e →
      r.err = some e ∧ post = [] ∧ r.final = st.post

/-- A database whose connection is broken: every statement fails with the error. -/
def brokenDB (e : GoError) : DB := ⟨[], [], some e⟩

/-- The batches passed to `SaveEmails`, in call order. -/
def savedBatches (evs : List Event) : List (List Email) :=
  evs.filterMap (fun ev => match ev with
    | .SaveEmails emails _ => some emails
    | _ => none)

/-- The `GetEmails` calls in call order: the external user ID asked for and the
result. -/
def emailFetches (evs : List Event) : List (String × Except GoError (List Email)) :=
  evs.filterMap (fun ev => match ev with
    | .GetEmails _ externalUserID _ res => some (externalUserID, res)
    | _ => none)

/-- The batch that is to be persisted after one `GetEmails` call: nothing when the
fetch failed or returned no email, otherwise the fetched emails with `UserID` set
to the internal ID the canonical mapping gives for the external user ID. -/
def expectedBatch (userMap : String → Option UUID) :
    String × Except GoError (List Email) → Option (List Email)
  | (_, .error _) => none
  | (externalUserID, .ok emails) =>
    if emails = [] then none
    else (userMap externalUserID).map
      (fun internalUserID => emails.map (fun e => { e with UserID := internalUserID }))

/-- A user of tenant 7 as the Google client of the tests would return it. -/
def testUser (id : UUID) (externalUserID : String) : User :=
  { ID := id, TenantID := 7, ExternalUserID := externalUserID,
    Email := externalUserID ++ "@example.com", Name := "", Provider := ProviderGoogle }

/-- An email of tenant 7 as a provider client would return it; the client has put
`userID` on it. -/
def testEmail (id : UUID) (userID : UUID) (externalMessageID : String) (receivedAt : Time) :
    Email :=
  { ID := id, TenantID := 7, UserID := userID, ExternalMessageID := externalMessageID,
    From := "sender@external.com", To := ["user@example.com"], Cc := [], Bcc := [],
    Subject := "hello", Body := "", ReceivedAt := receivedAt, Provider := ProviderGoogle }

/-- Three fetched users with the in-memory IDs 1, 2 and 3. -/
def threeUsers : List User := [testUser 1 "ext-1", testUser 2 "ext-2", testUser 3 "ext-3"]

/-- The same three users as stored earlier, under the canonical IDs 101, 102, 103. -/
def threeCanonicalUsers : List User :=
  [testUser 101 "ext-1", testUser 102 "ext-2", testUser 103 "ext-3"]

/-- One email per user, carrying the in-memory user ID. -/
def threeUsersEmails : String → Except GoError (List Email) := fun externalUserID =>
  if externalUserID = "ext-1" then .ok [testEmail 11 1 "m-1" 100]
  else if externalUserID = "ext-2" then .ok [testEmail 12 2 "m-2" 200]
  else if externalUserID = "ext-3" then .ok [testEmail 13 3 "m-3" 300]
  else .ok []

/-- Three users, every call succeeds except `GetEmails` for "ext-2". -/
def isolationAnswers : MockAnswers where
  lastSyncTime := .ok 50
  fetchedUsers := .ok threeUsers
  saveUsers := none
  dbUsers := .ok threeCanonicalUsers
  getEmails := fun externalUserID =>
    if externalUserID = "ext-2" then .error (errorsNew "mailbox unavailable")
    else threeUsersEmails externalUserID
  saveEmails := fun _ => none

/-- Three users, every call succeeds except the `SaveEmails` of the second user. -/
def saveEmailsErrorAnswers : MockAnswers where
  lastSyncTime := .ok 50
  fetchedUsers := .ok threeUsers
  saveUsers := none
  dbUsers := .ok threeCanonicalUsers
  getEmails := threeUsersEmails
  saveEmails := fun emails =>
    if emails.any (fun e => e.ExternalMessageID = "m-2") then some (errorsNew "disk full")
    else none

/-- Whether the external ID of the fetched user `u` occurs among the users
returned by `GetUsersByTenant`. -/
def resolves (dbUsers : List User) (u : User) : Bool :=
  dbUsers.any (fun du => decide (du.ExternalUserID = u.ExternalUserID))

/-- Three users of which the second is missing from the stored users. -/
def skipAnswers : MockAnswers where
  lastSyncTime := .ok 50
  fetchedUsers := .ok threeUsers
  saveUsers := none
  dbUsers := .ok [testUser 101 "ext-1", testUser 103 "ext-3"]
  getEmails := threeUsersEmails
  saveEmails := fun _ => none

/-- The first user `microsoftProvider.GetUsers` returns for `tenantID` when `k`
identifiers have been generated before the call. -/
def microsoftFirstUser (env : Env) (tenantID : UUID) (k : Nat) : User :=
  { ID := env.uuidNew (k + 2), TenantID := tenantID,
    ExternalUserID := env.uuidString (env.uuidNew k),
    Email := "satya@msft.example.com", Name := "Satya Nadella",
    Provider := ProviderMicrosoft }

/-- The second user `microsoftProvider.GetUsers` returns for `tenantID` when `k`
identifiers have been generated before the call. -/
def microsoftSecondUser (env : Env) (tenantID : UUID) (k : Nat) : User :=
  { ID := env.uuidNew (k + 3), TenantID := tenantID,
    ExternalUserID := env.uuidString (env.uuidNew (k + 1)),
    Email := "phil@msft.example.com", Name := "Phil Spencer",
    Provider := ProviderMicrosoft }

/-- The users `microsoftProvider.GetUsers` returns for `tenantID` when `k`
identifiers have been generated before the call. -/
def microsoftFetch (env : Env) (tenantID : UUID) (k : Nat) : List User :=
  [microsoftFirstUser env tenantID k, microsoftSecondUser env tenantID k]

/-- A Microsoft email of tenant 7 received at `receivedAt`. -/
def watermarkEmail (id : UUID) (externalMessageID : String) (receivedAt : Time) : Email :=
  { testEmail id 1 externalMessageID receivedAt with Provider := ProviderMicrosoft }

/-- The database after `SaveEmails` has stored, from empty, three Microsoft emails
of tenant 7 received 100, 300 and 200 nanoseconds after the zero time. -/
def nanoWatermarkDB : DB :=
  (duckDBRepo.SaveEmails demoEngine emptyDB
    [watermarkEmail 21 "w-1" 100, watermarkEmail 22 "w-3" 300, watermarkEmail 23 "w-2" 200]).2

/-- The database after `SaveEmails` has stored, from empty, three Microsoft emails
of tenant 7 received 100, 300 and 200 microseconds after the zero time, one
Google email of tenant 7 received later and one Microsoft email of tenant 8
received later still. -/
def watermarkDB : DB :=
  (duckDBRepo.SaveEmails demoEngine emptyDB
    [watermarkEmail 21 "w-1" 100000, watermarkEmail 22 "w-3" 300000,
     watermarkEmail 23 "w-2" 200000, testEmail 24 1 "w-4" 900000,
     { watermarkEmail 25 "w-5" 950000 with TenantID := 8 }]).2

/-- The first sync of `tenantID` on Microsoft with the built-in provider and the
DuckDB repository, from empty storage. -/
def firstSync (eng : Engine) (env : Env) (tenantID : UUID) : Run World :=
  SyncTenant (NewService env (duckDB eng)) tenantID ProviderMicrosoft emptyWorld

/-- The same sync run again, in the world the first one left. -/
def secondSync (eng : Engine) (env : Env) (tenantID : UUID) : Run World :=
  SyncTenant (NewService env (duckDB eng)) tenantID ProviderMicrosoft
    (firstSync eng env tenantID).final

/-- The row that `SaveEmails` stores for the email the Microsoft client returns
when `k` identifiers have been generated and the clock has been read `n` times,
stamped with `internalUserID`. -/
def microsoftRow (env : Env) (tenantID : UUID) (internalUserID : UUID) (k n : Nat) :
    EmailRow :=
  { id := env.uuidNew k, tenant_id := tenantID, user_id := internalUserID,
    external_message_id := "msft-123", from_email := "bill@external.com",
    to_emails := ["satya@msft.example.com"], cc_emails := none, bcc_emails := none,
    subject := "Urgent Invoice", body := "Please pay this immediately.",
    received_at := timeToTimestamp (env.timeNow n + (-1 * Hour)),
    provider := ProviderMicrosoft }

/-- Example library whose clock reads a fraction of a microsecond past ten
hours. -/
def nanoEnv : Env :=
  { demoEnv with timeNow := fun _ => 10 * Hour + 123456789 }

/-- A user of tenant 7 and provider Google with the external ID "shared". -/
def sharedGoogleUser : User :=
  { ID := 201, TenantID := 7, ExternalUserID := "shared", Email := "shared@example.com",
    Name := "", Provider := ProviderGoogle }

/-- A user of tenant 7 and provider Microsoft with the same external ID "shared". -/
def sharedMicrosoftUser : User :=
  { ID := 202, TenantID := 7, ExternalUserID := "shared", Email := "shared@msft.example.com",
    Name := "", Provider := ProviderMicrosoft }

/-- A mock repository whose `GetUsersByTenant` returns the Google user and then
the Microsoft user that share the external ID "shared", and a mock client that
returns the user "shared" (in-memory ID 1) and one email for it. -/
def sharedAnswers : MockAnswers where
  lastSyncTime := .ok zeroTime
  fetchedUsers := .ok [testUser 1 "shared"]
  saveUsers := none
  dbUsers := .ok [sharedGoogleUser, sharedMicrosoftUser]
  getEmails := fun externalUserID =>
    if externalUserID = "shared" then .ok [testEmail 11 1 "m-1" 100] else .ok []
  saveEmails := fun _ => none

/-- The answers of `TestService_SyncTenant_Success`: one user "ext-123", the zero
time as last sync time, one email. -/
def successAnswers : MockAnswers where
  lastSyncTime := .ok zeroTime
  fetchedUsers := .ok [testUser 1 "ext-123"]
  saveUsers := none
  dbUsers := .ok [testUser 1 "ext-123"]
  getEmails := fun _ => .ok [testEmail 11 1 "" 0]
  saveEmails := fun _ => none

/-! # Properties -/

/-! ## Shape of a run -/

@[simp] theorem Run.after_err {σ : Type} (pre : List (Step σ)) (r : Run σ) :
    (Run.after pre r).err = r.err := rfl

@[simp] theorem Run.after_trace {σ : Type} (pre : List (Step σ)) (r : Run σ) :
    (Run.after pre r).trace = pre ++ r.trace := rfl

@[simp] theorem Run.after_final {σ : Type} (pre : List (Step σ)) (r : Run σ) :
    (Run.after pre r).final = r.final := rfl

@[simp] theorem Run.after_events {σ : Type} (pre : List (Step σ)) (r : Run σ) :
    (Run.after pre r).events = pre.map Step.ev ++ r.events := by
  simp [Run.events]

/-- The loop on no user makes no call and succeeds. -/
theorem syncUserEmails_nil {σ : Type} (repo : Repository σ) (client : ProviderClient σ)
    (tenantID : UUID) (userMap : String → Option UUID) (lastSyncTime : Time) (w : σ)
    (total : Nat) :
    syncUserEmails repo client tenantID userMap lastSyncTime [] w total =
      ⟨none, [], w, total⟩ := by
  simp only [syncUserEmails]

/-- One iteration of the loop: the five ways the body can go. -/
theorem syncUserEmails_cons {σ : Type} (repo : Repository σ) (client : ProviderClient σ)
    (tenantID : UUID) (userMap : String → Option UUID) (lastSyncTime : Time)
    (u : User) (rest : List User) (w : σ) (total : Nat) :
    (userMap u.ExternalUserID = none ∧
      syncUserEmails repo client tenantID userMap lastSyncTime (u :: rest) w total =
        syncUserEmails repo client tenantID userMap lastSyncTime rest w total) ∨
    (∃ internalUserID err w1, userMap u.ExternalUserID = some internalUserID ∧
      client.GetEmails tenantID u.ExternalUserID lastSyncTime w = (.error err, w1) ∧
      syncUserEmails repo client tenantID userMap lastSyncTime (u :: rest) w total =
        Run.after [⟨.GetEmails tenantID u.ExternalUserID lastSyncTime (.error err), w1⟩]
          (syncUserEmails repo client tenantID userMap lastSyncTime rest w1 total)) ∨
    (∃ internalUserID w1, userMap u.ExternalUserID = some internalUserID ∧
      client.GetEmails tenantID u.ExternalUserID lastSyncTime w = (.ok [], w1) ∧
      syncUserEmails repo client tenantID userMap lastSyncTime (u :: rest) w total =
        Run.after [⟨.GetEmails tenantID u.ExternalUserID lastSyncTime (.ok []), w1⟩]
          (syncUserEmails repo client tenantID userMap lastSyncTime rest w1 total)) ∨
    (∃ internalUserID emails w1 err w2, userMap u.ExternalUserID = some internalUserID ∧
      client.GetEmails tenantID u.ExternalUserID lastSyncTime w = (.ok emails, w1) ∧
      emails ≠ [] ∧
      repo.SaveEmails (stampUserID internalUserID emails) w1 = (some err, w2) ∧
      syncUserEmails repo client tenantID userMap lastSyncTime (u :: rest) w total =
        ⟨some err,
          [⟨.GetEmails tenantID u.ExternalUserID lastSyncTime (.ok emails), w1⟩,
           ⟨.SaveEmails (stampUserID internalUserID emails) (some err), w2⟩],
          w2, total⟩) ∨
    (∃ internalUserID emails w1 w2, userMap u.ExternalUserID = some internalUserID ∧
      client.GetEmails tenantID u.ExternalUserID lastSyncTime w = (.ok emails, w1) ∧
      emails ≠ [] ∧
      repo.SaveEmails (stampUserID internalUserID emails) w1 = (none, w2) ∧
      syncUserEmails repo client tenantID userMap lastSyncTime (u :: rest) w total =
        Run.after
          [⟨.GetEmails tenantID u.ExternalUserID lastSyncTime (.ok emails), w1⟩,
           ⟨.SaveEmails (stampUserID internalUserID emails) none, w2⟩]
          (syncUserEmails repo client tenantID userMap lastSyncTime rest w2
            (total + emails.length))) := by
  cases hmap : userMap u.ExternalUserID with
  | none => left; simp only [syncUserEmails, hmap, and_self]
  | some internalUserID =>
    right
    rcases hget : client.GetEmails tenantID u.ExternalUserID lastSyncTime w with ⟨res, w1⟩
    cases res with
    | error err =>
      left
      exact ⟨internalUserID, err, w1, rfl, rfl, by simp only [syncUserEmails, hmap, hget]⟩
    | ok emails =>
      right
      by_cases hempty : emails = []
      · left
        subst hempty
        exact ⟨internalUserID, w1, rfl, rfl, by
          simp [syncUserEmails, hmap, hget]⟩
      · right
        have hlen : emails.length > 0 := List.length_pos.mpr hempty
        rcases hsave : repo.SaveEmails (stampUserID internalUserID emails) w1 with ⟨r, w2⟩
        cases r with
        | some err =>
          left
          exact ⟨internalUserID, emails, w1, err, w2, rfl, rfl, hempty, hsave, by
            simp [syncUserEmails, hmap, hget, hlen, hsave]⟩
        | none =>
          right
          exact ⟨internalUserID, emails, w1, w2, rfl, rfl, hempty, hsave, by
            simp [syncUserEmails, hmap, hget, hlen, hsave]⟩

/-- With a registered provider a run ends in one of five ways: at a failing
`GetLastSyncTime`, `GetUsers`, `SaveUsers` or `GetUsersByTenant`, or in the
per-user loop. -/
theorem SyncTenant_cases {σ : Type} (s : Service σ) (client : ProviderClient σ)
    (tenantID : UUID) (provider : Provider) (w : σ)
    (hclient : s.providers provider = some client) :
    (∃ err w1, s.repo.GetLastSyncTime tenantID provider w = (.error err, w1) ∧
      SyncTenant s tenantID provider w =
        ⟨some err, [⟨.GetLastSyncTime tenantID provider (.error err), w1⟩], w1, 0⟩) ∨
    (∃ lastSyncTime w1 err w2,
      s.repo.GetLastSyncTime tenantID provider w = (.ok lastSyncTime, w1) ∧
      client.GetUsers tenantID w1 = (.error err, w2) ∧
      SyncTenant s tenantID provider w =
        ⟨some err,
          [⟨.GetLastSyncTime tenantID provider (.ok lastSyncTime), w1⟩,
           ⟨.GetUsers tenantID (.error err), w2⟩], w2, 0⟩) ∨
    (∃ lastSyncTime w1 users w2 err w3,
      s.repo.GetLastSyncTime tenantID provider w = (.ok lastSyncTime, w1) ∧
      client.GetUsers tenantID w1 = (.ok users, w2) ∧
      s.repo.SaveUsers users w2 = (some err, w3) ∧
      SyncTenant s tenantID provider w =
        ⟨some err,
          [⟨.GetLastSyncTime tenantID provider (.ok lastSyncTime), w1⟩,
           ⟨.GetUsers tenantID (.ok users), w2⟩,
           ⟨.SaveUsers users (some err), w3⟩], w3, 0⟩) ∨
    (∃ lastSyncTime w1 users w2 w3 err w4,
      s.repo.GetLastSyncTime tenantID provider w = (.ok lastSyncTime, w1) ∧
      client.GetUsers tenantID w1 = (.ok users, w2) ∧
      s.repo.SaveUsers users w2 = (none, w3) ∧
      s.repo.GetUsersByTenant tenantID w3 = (.error err, w4) ∧
      SyncTenant s tenantID provider w =
        ⟨some err,
          [⟨.GetLastSyncTime tenantID provider (.ok lastSyncTime), w1⟩,
           ⟨.GetUsers tenantID (.ok users), w2⟩,
           ⟨.SaveUsers users none, w3⟩,
           ⟨.GetUsersByTenant tenantID (.error err), w4⟩], w4, 0⟩) ∨
    (∃ lastSyncTime w1 users w2 w3 dbUsers w4,
      s.repo.GetLastSyncTime tenantID provider w = (.ok lastSyncTime, w1) ∧
      client.GetUsers tenantID w1 = (.ok users, w2) ∧
      s.repo.SaveUsers users w2 = (none, w3) ∧
      s.repo.GetUsersByTenant tenantID w3 = (.ok dbUsers, w4) ∧
      SyncTenant s tenantID provider w =
        Run.after
          [⟨.GetLastSyncTime tenantID provider (.ok lastSyncTime), w1⟩,
           ⟨.GetUsers tenantID (.ok users), w2⟩,
           ⟨.SaveUsers users none, w3⟩,
           ⟨.GetUsersByTenant tenantID (.ok dbUsers), w4⟩]
          (syncUserEmails s.repo client tenantID (buildUserMap dbUsers) lastSyncTime
            users w4 0)) := by
  rcases hsync : s.repo.GetLastSyncTime tenantID provider w with ⟨r1, w1⟩
  cases r1 with
  | error err =>
    left
    exact ⟨err, w1, rfl, by simp only [SyncTenant, hclient, hsync]⟩
  | ok lastSyncTime =>
    right
    rcases husers : client.GetUsers tenantID w1 with ⟨r2, w2⟩
    cases r2 with
    | error err =>
      left
      exact ⟨lastSyncTime, w1, err, w2, rfl, husers, by
        simp only [SyncTenant, hclient, hsync, husers]⟩
    | ok users =>
      right
      rcases hsave : s.repo.SaveUsers users w2 with ⟨r3, w3⟩
      cases r3 with
      | some err =>
        left
        exact ⟨lastSyncTime, w1, users, w2, err, w3, rfl, husers, hsave, by
          simp only [SyncTenant, hclient, hsync, husers, hsave]⟩
      | none =>
        right
        rcases hdb : s.repo.GetUsersByTenant tenantID w3 with ⟨r4, w4⟩
        cases r4 with
        | error err =>
          left
          exact ⟨lastSyncTime, w1, users, w2, w3, err, w4, rfl, husers, hsave, hdb, by
            simp only [SyncTenant, hclient, hsync, husers, hsave, hdb]⟩
        | ok dbUsers =>
          right
          exact ⟨lastSyncTime, w1, users, w2, w3, dbUsers, w4, rfl, husers, hsave, hdb, by
            simp only [SyncTenant, hclient, hsync, husers, hsave, hdb]⟩

/-- A run that gets through the four preliminary calls is those calls followed by
the per-user loop. -/
theorem SyncTenant_loop {σ : Type} (s : Service σ) (client : ProviderClient σ)
    (tenantID : UUID) (provider : Provider) (w w1 w2 w3 w4 : σ) (lastSyncTime : Time)
    (users dbUsers : List User)
    (hclient : s.providers provider = some client)
    (hsync : s.repo.GetLastSyncTime tenantID provider w = (.ok lastSyncTime, w1))
    (husers : client.GetUsers tenantID w1 = (.ok users, w2))
    (hsave : s.repo.SaveUsers users w2 = (none, w3))
    (hdb : s.repo.GetUsersByTenant tenantID w3 = (.ok dbUsers, w4)) :
    SyncTenant s tenantID provider w =
      Run.after
        [⟨.GetLastSyncTime tenantID provider (.ok lastSyncTime), w1⟩,
         ⟨.GetUsers tenantID (.ok users), w2⟩,
         ⟨.SaveUsers users none, w3⟩,
         ⟨.GetUsersByTenant tenantID (.ok dbUsers), w4⟩]
        (syncUserEmails s.repo client tenantID (buildUserMap dbUsers) lastSyncTime
          users w4 0) := by
  simp only [SyncTenant, hclient, hsync, husers, hsave, hdb]

/-! ## Unsupported provider -/

/-- C1: when the provider value is not a key of the registry, `SyncTenant` returns
the non-nil error "provider not supported", makes no Repository or ProviderClient
call and leaves the world as it was; for a service built by `NewService` this is
the case for every provider value other than "google" and "microsoft". -/
theorem SyncTenant_unsupported_provider :
    (∀ {σ : Type} (s : Service σ) (tenantID : UUID) (provider : Provider) (w : σ),
      s.providers provider = none →
        (SyncTenant s tenantID provider w).err ≠ none ∧
        (SyncTenant s tenantID provider w).err = some (errorsNew "provider not supported") ∧
        (SyncTenant s tenantID provider w).trace = [] ∧
        (SyncTenant s tenantID provider w).final = w) ∧
    (∀ (env : Env) (repo : Repository World) (tenantID : UUID) (provider : Provider)
      (w : World), provider ≠ ProviderGoogle → provider ≠ ProviderMicrosoft →
        (NewService env repo).providers provider = none ∧
        (SyncTenant (NewService env repo) tenantID provider w).err ≠ none ∧
        (SyncTenant (NewService env repo) tenantID provider w).trace = []) := by
  have general : ∀ {σ : Type} (s : Service σ) (tenantID : UUID) (provider : Provider) (w : σ),
      s.providers provider = none →
        SyncTenant s tenantID provider w =
          ⟨some (errorsNew "provider not supported"), [], w, 0⟩ := by
    intro σ s tenantID provider w h
    simp only [SyncTenant, h]
  refine ⟨?_, ?_⟩
  · intro σ s tenantID provider w h
    rw [general s tenantID provider w h]
    simp
  · intro env repo tenantID provider w hg hm
    have hnone : (NewService env repo).providers provider = none := by
      simp [NewService, hg, hm]
    rw [general _ tenantID provider w hnone]
    simp [hnone]

/-- Instance of C1: the built-in service on the provider value "yahoo". -/
theorem SyncTenant_unsupported_provider_witness :
    (SyncTenant (NewService demoEnv (duckDB demoEngine)) 7 "yahoo" emptyWorld).err ≠ none ∧
    (SyncTenant (NewService demoEnv (duckDB demoEngine)) 7 "yahoo" emptyWorld).trace = [] :=
  (SyncTenant_unsupported_provider.2 demoEnv (duckDB demoEngine) 7 "yahoo" emptyWorld
    (by decide) (by decide)).2

/-! ## Failure of the user fetch -/

/-- C2: with a registered provider, when `GetLastSyncTime` succeeds and the
client's `GetUsers` returns the error `e`, `SyncTenant` returns exactly `e`; the
only calls made are that `GetLastSyncTime` and that `GetUsers`, so there is no
`SaveUsers`, `GetUsersByTenant`, `GetEmails` or `SaveEmails` call. -/
theorem SyncTenant_GetUsers_error {σ : Type} (s : Service σ) (client : ProviderClient σ)
    (tenantID : UUID) (provider : Provider) (w w1 w2 : σ) (lastSyncTime : Time) (e : GoError)
    (hclient : s.providers provider = some client)
    (hsync : s.repo.GetLastSyncTime tenantID provider w = (.ok lastSyncTime, w1))
    (husers : client.GetUsers tenantID w1 = (.error e, w2)) :
    (SyncTenant s tenantID provider w).err = some e ∧
    (SyncTenant s tenantID provider w).events =
      [.GetLastSyncTime tenantID provider (.ok lastSyncTime), .GetUsers tenantID (.error e)] ∧
    (SyncTenant s tenantID provider w).final = w2 := by
  simp only [SyncTenant, hclient, hsync, husers, Run.events, List.map_cons, List.map_nil,
    and_self]

/-- Instance of C2: `TestService_SyncTenant_ProviderError`, where the injected
client fails with "API failed". -/
theorem SyncTenant_GetUsers_error_witness :
    (SyncTenant (mockService providerErrorAnswers ProviderMicrosoft) 7 ProviderMicrosoft
      emptyWorld).err = some (errorsNew "API failed") ∧
    (SyncTenant (mockService providerErrorAnswers ProviderMicrosoft) 7 ProviderMicrosoft
      emptyWorld).events =
      [.GetLastSyncTime 7 ProviderMicrosoft (.ok zeroTime),
       .GetUsers 7 (.error (errorsNew "API failed"))] ∧
    (SyncTenant (mockService providerErrorAnswers ProviderMicrosoft) 7 ProviderMicrosoft
      emptyWorld).final = emptyWorld :=
  SyncTenant_GetUsers_error (mockService providerErrorAnswers ProviderMicrosoft)
    (MockProviderClient providerErrorAnswers) 7 ProviderMicrosoft emptyWorld emptyWorld
    emptyWorld zeroTime (errorsNew "API failed") (by simp [mockService, Service.setProvider])
    rfl rfl

/-! ## Storage errors are fatal -/

theorem Run.failFast_nil {σ : Type} (err : Option GoError) (w : σ) (n : Nat) :
    Run.FailFast (⟨err, [], w, n⟩ : Run σ) := by
  intro pre st post e h
  simp at h

theorem Run.failFast_cons {σ : Type} (st0 : Step σ) (r : Run σ)
    (hst0 : st0.ev.isRepository = true → st0.ev.error? = none) (hr : r.FailFast) :
    (Run.after [st0] r).FailFast := by
  intro pre st post e h hrepo herr
  cases pre with
  | nil =>
    simp only [Run.after_trace, List.singleton_append, List.nil_append, List.cons.injEq] at h
    obtain ⟨h1, _⟩ := h
    subst h1
    rw [hst0 hrepo] at herr
    cases herr
  | cons a pre1 =>
    simp only [Run.after_trace, List.singleton_append, List.cons_append, List.cons.injEq] at h
    exact hr pre1 st post e h.2 hrepo herr

theorem Run.failFast_last {σ : Type} (st0 : Step σ) (e0 : GoError) (n : Nat)
    (h0 : st0.ev.error? = some e0) :
    Run.FailFast (⟨some e0, [st0], st0.post, n⟩ : Run σ) := by
  intro pre st post e h _ herr
  cases pre with
  | nil =>
    simp only [List.nil_append, List.cons.injEq] at h
    obtain ⟨h1, h2⟩ := h
    subst h1
    rw [h0] at herr
    cases herr
    exact ⟨rfl, h2.symm, rfl⟩
  | cons a pre1 =>
    simp at h

/-- The per-user loop is fail-fast. -/
theorem syncUserEmails_failFast {σ : Type} (repo : Repository σ) (client : ProviderClient σ)
    (tenantID : UUID) (userMap : String → Option UUID) (lastSyncTime : Time)
    (users : List User) :
    ∀ (w : σ) (total : Nat),
      (syncUserEmails repo client tenantID userMap lastSyncTime users w total).FailFast := by
  induction users with
  | nil =>
    intro w total
    rw [syncUserEmails_nil]
    exact Run.failFast_nil _ _ _
  | cons u rest ih =>
    intro w total
    rcases syncUserEmails_cons repo client tenantID userMap lastSyncTime u rest w total with
      ⟨_, h⟩ | ⟨_, err, w1, _, _, h⟩ | ⟨_, w1, _, _, h⟩ | ⟨i, emails, w1, err, w2, _, _, _, _, h⟩ |
      ⟨i, emails, w1, w2, _, _, _, _, h⟩
    · rw [h]; exact ih w total
    · rw [h]
      exact Run.failFast_cons _ _ (by intro hrepo; cases hrepo) (ih w1 total)
    · rw [h]
      exact Run.failFast_cons _ _ (by intro hrepo; cases hrepo) (ih w1 total)
    · rw [h]
      exact Run.failFast_cons
        ⟨.GetEmails tenantID u.ExternalUserID lastSyncTime (.ok emails), w1⟩ _
        (by intro hrepo; cases hrepo)
        (Run.failFast_last ⟨.SaveEmails (stampUserID i emails) (some err), w2⟩ err total rfl)
    · rw [h]
      exact Run.failFast_cons
        ⟨.GetEmails tenantID u.ExternalUserID lastSyncTime (.ok emails), w1⟩ _
        (by intro hrepo; cases hrepo)
        (Run.failFast_cons ⟨.SaveEmails (stampUserID i emails) none, w2⟩ _ (fun _ => rfl)
          (ih w2 (total + emails.length)))

/-- Every run of `SyncTenant` is fail-fast. -/
theorem SyncTenant_failFast {σ : Type} (s : Service σ) (tenantID : UUID) (provider : Provider)
    (w : σ) : (SyncTenant s tenantID provider w).FailFast := by
  cases hclient : s.providers provider with
  | none =>
    have h : SyncTenant s tenantID provider w =
        ⟨some (errorsNew "provider not supported"), [], w, 0⟩ := by
      simp only [SyncTenant, hclient]
    rw [h]
    exact Run.failFast_nil _ _ _
  | some client =>
    rcases SyncTenant_cases s client tenantID provider w hclient with
      ⟨err, w1, _, h⟩ | ⟨ts, w1, err, w2, _, _, h⟩ | ⟨ts, w1, users, w2, err, w3, _, _, _, h⟩ |
      ⟨ts, w1, users, w2, w3, err, w4, _, _, _, _, h⟩ |
      ⟨ts, w1, users, w2, w3, dbUsers, w4, _, _, _, _, h⟩
    · rw [h]
      exact Run.failFast_last ⟨.GetLastSyncTime tenantID provider (.error err), w1⟩ err 0 rfl
    · rw [h]
      intro pre st post e htrace hrepo herr
      have hmem : st ∈ [(⟨.GetLastSyncTime tenantID provider (.ok ts), w1⟩ : Step σ),
          ⟨.GetUsers tenantID (.error err), w2⟩] := by
        have : st ∈ pre ++ st :: post := by simp
        rw [← htrace] at this
        exact this
      simp only [List.mem_cons, List.mem_singleton, List.not_mem_nil, or_false] at hmem
      rcases hmem with hst | hst
      · subst hst; cases herr
      · subst hst; cases hrepo
    · rw [h]
      exact Run.failFast_cons ⟨.GetLastSyncTime tenantID provider (.ok ts), w1⟩ _ (fun _ => rfl)
        (Run.failFast_cons ⟨.GetUsers tenantID (.ok users), w2⟩ _ (fun _ => rfl)
          (Run.failFast_last ⟨.SaveUsers users (some err), w3⟩ err 0 rfl))
    · rw [h]
      exact Run.failFast_cons ⟨.GetLastSyncTime tenantID provider (.ok ts), w1⟩ _ (fun _ => rfl)
        (Run.failFast_cons ⟨.GetUsers tenantID (.ok users), w2⟩ _ (fun _ => rfl)
          (Run.failFast_cons ⟨.SaveUsers users none, w3⟩ _ (fun _ => rfl)
            (Run.failFast_last ⟨.GetUsersByTenant tenantID (.error err), w4⟩ err 0 rfl)))
    · rw [h]
      exact Run.failFast_cons ⟨.GetLastSyncTime tenantID provider (.ok ts), w1⟩ _ (fun _ => rfl)
        (Run.failFast_cons ⟨.GetUsers tenantID (.ok users), w2⟩ _ (fun _ => rfl)
          (Run.failFast_cons ⟨.SaveUsers users none, w3⟩ _ (fun _ => rfl)
            (Run.failFast_cons ⟨.GetUsersByTenant tenantID (.ok dbUsers), w4⟩ _ (fun _ => rfl)
              (syncUserEmails_failFast s.repo client tenantID (buildUserMap dbUsers) ts
                users w4 0))))

/-- C5: in every run of `SyncTenant`, a Repository call (`GetLastSyncTime`,
`SaveUsers`, `GetUsersByTenant` or any `SaveEmails`) that returned the error `e`
is the last call of the run (no further Repository or ProviderClient call
follows it), `SyncTenant` returns exactly `e`, and the world at return is the
world that failing call left behind, so nothing persisted by the earlier calls
is undone. -/
theorem SyncTenant_storage_error_fatal {σ : Type} (s : Service σ) (tenantID : UUID)
    (provider : Provider) (w : σ) (pre : List (Step σ)) (st : Step σ) (post : List (Step σ))
    (e : GoError)
    (htrace : (SyncTenant s tenantID provider w).trace = pre ++ st :: post)
    (hrepo : st.ev.isRepository = true) (herr : st.ev.error? = some e) :
    (SyncTenant s tenantID provider w).err = some e ∧ post = [] ∧
    (SyncTenant s tenantID provider w).final = st.post :=
  SyncTenant_failFast s tenantID provider w pre st post e htrace hrepo herr

/-- Instance of C5: three users, the `SaveEmails` of the second fails with "disk
full" after the first user's batch was saved; the run returns that error and the
third user is never fetched. -/
theorem SyncTenant_storage_error_fatal_witness :
    (SyncTenant (mockService saveEmailsErrorAnswers ProviderGoogle) 7 ProviderGoogle
      emptyWorld).err = some (errorsNew "disk full") ∧
    ([] : List (Step World)) = [] ∧
    (SyncTenant (mockService saveEmailsErrorAnswers ProviderGoogle) 7 ProviderGoogle
      emptyWorld).final = emptyWorld :=
  SyncTenant_storage_error_fatal (mockService saveEmailsErrorAnswers ProviderGoogle) 7
    ProviderGoogle emptyWorld
    [⟨.GetLastSyncTime 7 ProviderGoogle (.ok 50), emptyWorld⟩,
     ⟨.GetUsers 7 (.ok threeUsers), emptyWorld⟩,
     ⟨.SaveUsers threeUsers none, emptyWorld⟩,
     ⟨.GetUsersByTenant 7 (.ok threeCanonicalUsers), emptyWorld⟩,
     ⟨.GetEmails 7 "ext-1" 50 (.ok [testEmail 11 1 "m-1" 100]), emptyWorld⟩,
     ⟨.SaveEmails [testEmail 11 101 "m-1" 100] none, emptyWorld⟩,
     ⟨.GetEmails 7 "ext-2" 50 (.ok [testEmail 12 2 "m-2" 200]), emptyWorld⟩]
    ⟨.SaveEmails [testEmail 12 102 "m-2" 200] (some (errorsNew "disk full")), emptyWorld⟩
    [] (errorsNew "disk full") (by rfl) rfl rfl

/-! ## Reading the record of calls -/

@[simp] theorem emailFetches_nil : emailFetches [] = [] := rfl

@[simp] theorem emailFetches_append (xs ys : List Event) :
    emailFetches (xs ++ ys) = emailFetches xs ++ emailFetches ys := by
  simp [emailFetches]

@[simp] theorem emailFetches_GetEmails (tenantID : UUID) (externalUserID : String)
    (receivedAfter : Time) (res : Except GoError (List Email)) (evs : List Event) :
    emailFetches (.GetEmails tenantID externalUserID receivedAfter res :: evs) =
      (externalUserID, res) :: emailFetches evs := by
  simp [emailFetches]

@[simp] theorem emailFetches_SaveEmails (emails : List Email) (res : Option GoError)
    (evs : List Event) :
    emailFetches (.SaveEmails emails res :: evs) = emailFetches evs := by
  simp [emailFetches]

@[simp] theorem savedBatches_nil : savedBatches [] = [] := rfl

@[simp] theorem savedBatches_append (xs ys : List Event) :
    savedBatches (xs ++ ys) = savedBatches xs ++ savedBatches ys := by
  simp [savedBatches]

@[simp] theorem savedBatches_GetEmails (tenantID : UUID) (externalUserID : String)
    (receivedAfter : Time) (res : Except GoError (List Email)) (evs : List Event) :
    savedBatches (.GetEmails tenantID externalUserID receivedAfter res :: evs) =
      savedBatches evs := by
  simp [savedBatches]

@[simp] theorem savedBatches_SaveEmails (emails : List Email) (res : Option GoError)
    (evs : List Event) :
    savedBatches (.SaveEmails emails res :: evs) = emails :: savedBatches evs := by
  simp [savedBatches]

/-! ## Isolation of a failing email fetch -/

/-- The loop, when every fetched user resolves and every `SaveEmails` succeeds:
it succeeds, fetches once per user in order, and saves exactly the non-empty
successful fetches. -/
theorem syncUserEmails_isolation {σ : Type} (repo : Repository σ) (client : ProviderClient σ)
    (tenantID : UUID) (userMap : String → Option UUID) (lastSyncTime : Time)
    (users : List User) :
    ∀ (w : σ) (total : Nat),
      (∀ u ∈ users, userMap u.ExternalUserID ≠ none) →
      (∀ ev ∈ (syncUserEmails repo client tenantID userMap lastSyncTime users w total).events,
        ev.isRepository = true → ev.error? = none) →
      (syncUserEmails repo client tenantID userMap lastSyncTime users w total).err = none ∧
      (emailFetches
        (syncUserEmails repo client tenantID userMap lastSyncTime users w total).events).map
          Prod.fst = users.map User.ExternalUserID ∧
      savedBatches
        (syncUserEmails repo client tenantID userMap lastSyncTime users w total).events =
        (emailFetches
          (syncUserEmails repo client tenantID userMap lastSyncTime users w total).events
          ).filterMap (expectedBatch userMap) := by
  induction users with
  | nil =>
    intro w total _ _
    rw [syncUserEmails_nil]
    simp [Run.events]
  | cons u rest ih =>
    intro w total hres hok
    have hres1 : ∀ v ∈ rest, userMap v.ExternalUserID ≠ none :=
      fun v hv => hres v (List.mem_cons_of_mem _ hv)
    rcases syncUserEmails_cons repo client tenantID userMap lastSyncTime u rest w total with
      ⟨hnone, _⟩ | ⟨_, err, w1, _, _, h⟩ | ⟨_, w1, _, _, h⟩ |
      ⟨i, emails, w1, err, w2, _, _, _, _, h⟩ | ⟨i, emails, w1, w2, hmap, _, hne, _, h⟩
    · exact absurd hnone (hres u (List.mem_cons_self _ _))
    · rw [h] at hok ⊢
      simp only [Run.after_events, List.map_cons, List.map_nil, List.singleton_append,
        List.mem_cons] at hok
      obtain ⟨h1, h2, h3⟩ := ih w1 total hres1 (fun ev hev => hok ev (Or.inr hev))
      simp [h1, h2, h3, expectedBatch]
    · rw [h] at hok ⊢
      simp only [Run.after_events, List.map_cons, List.map_nil, List.singleton_append,
        List.mem_cons] at hok
      obtain ⟨h1, h2, h3⟩ := ih w1 total hres1 (fun ev hev => hok ev (Or.inr hev))
      simp [h1, h2, h3, expectedBatch]
    · rw [h] at hok
      have hbad := hok (.SaveEmails (stampUserID i emails) (some err))
        (by simp [Run.events]) rfl
      cases hbad
    · rw [h] at hok ⊢
      simp only [Run.after_events, List.map_cons, List.map_nil, List.cons_append,
        List.nil_append, List.mem_cons] at hok
      obtain ⟨h1, h2, h3⟩ := ih w2 (total + emails.length) hres1
        (fun ev hev => hok ev (Or.inr (Or.inr hev)))
      simp [h1, h2, h3, expectedBatch, hne, hmap, stampUserID]

/-- C3: with a registered provider, when the four preliminary calls succeed,
every fetched user resolves in the canonical mapping and every Repository call
of the run succeeds, then whatever subset of the `GetEmails` calls fails,
`SyncTenant` returns nil; `GetEmails` is called once per fetched user in fetched
order; and the batches passed to `SaveEmails` are, in that order, exactly the
stamped results of the `GetEmails` calls that succeeded with a non-empty result,
a failed `GetEmails` contributing none. -/
theorem SyncTenant_isolation {σ : Type} (s : Service σ) (client : ProviderClient σ)
    (tenantID : UUID) (provider : Provider) (w w1 w2 w3 w4 : σ) (lastSyncTime : Time)
    (users dbUsers : List User)
    (hclient : s.providers provider = some client)
    (hsync : s.repo.GetLastSyncTime tenantID provider w = (.ok lastSyncTime, w1))
    (husers : client.GetUsers tenantID w1 = (.ok users, w2))
    (hsave : s.repo.SaveUsers users w2 = (none, w3))
    (hdb : s.repo.GetUsersByTenant tenantID w3 = (.ok dbUsers, w4))
    (hresolve : ∀ u ∈ users, buildUserMap dbUsers u.ExternalUserID ≠ none)
    (hrepo : ∀ ev ∈ (SyncTenant s tenantID provider w).events,
      ev.isRepository = true → ev.error? = none) :
    (SyncTenant s tenantID provider w).err = none ∧
    (emailFetches (SyncTenant s tenantID provider w).events).map Prod.fst =
      users.map User.ExternalUserID ∧
    savedBatches (SyncTenant s tenantID provider w).events =
      (emailFetches (SyncTenant s tenantID provider w).events).filterMap
        (expectedBatch (buildUserMap dbUsers)) := by
  rw [SyncTenant_loop s client tenantID provider w w1 w2 w3 w4 lastSyncTime users dbUsers
    hclient hsync husers hsave hdb] at hrepo ⊢
  simp only [Run.after_events, List.map_cons, List.map_nil, List.cons_append,
    List.nil_append, List.mem_cons] at hrepo
  obtain ⟨h1, h2, h3⟩ := syncUserEmails_isolation s.repo client tenantID
    (buildUserMap dbUsers) lastSyncTime users w4 0 hresolve
    (fun ev hev => hrepo ev (Or.inr (Or.inr (Or.inr (Or.inr hev)))))
  refine ⟨by simpa using h1, ?_, ?_⟩
  · simpa [emailFetches] using h2
  · simpa [emailFetches, savedBatches] using h3

/-- Instance of C3: three users, `GetEmails` fails for the second one; the run
succeeds and the emails of the first and of the third user are saved, stamped
with the canonical IDs 101 and 103. -/
theorem SyncTenant_isolation_witness :
    ((SyncTenant (mockService isolationAnswers ProviderGoogle) 7 ProviderGoogle
        emptyWorld).err = none ∧
      (emailFetches (SyncTenant (mockService isolationAnswers ProviderGoogle) 7
        ProviderGoogle emptyWorld).events).map Prod.fst =
        threeUsers.map User.ExternalUserID ∧
      savedBatches (SyncTenant (mockService isolationAnswers ProviderGoogle) 7
        ProviderGoogle emptyWorld).events =
        (emailFetches (SyncTenant (mockService isolationAnswers ProviderGoogle) 7
          ProviderGoogle emptyWorld).events).filterMap
          (expectedBatch (buildUserMap threeCanonicalUsers))) ∧
    savedBatches (SyncTenant (mockService isolationAnswers ProviderGoogle) 7
      ProviderGoogle emptyWorld).events =
      [[testEmail 11 101 "m-1" 100], [testEmail 13 103 "m-3" 300]] :=
  ⟨SyncTenant_isolation (mockService isolationAnswers ProviderGoogle)
    (MockProviderClient isolationAnswers) 7 ProviderGoogle emptyWorld emptyWorld emptyWorld
    emptyWorld emptyWorld 50 threeUsers threeCanonicalUsers rfl rfl rfl rfl rfl
    (by decide) (by decide), by rfl⟩

/-! ## The canonical mapping -/

theorem buildUserMap_nil (k : String) : buildUserMap [] k = none := rfl

/-- Appending a stored user overrides the entry of its external ID. -/
theorem buildUserMap_append_singleton (l : List User) (u : User) (k : String) :
    buildUserMap (l ++ [u]) k = if k = u.ExternalUserID then some u.ID else buildUserMap l k := by
  simp [buildUserMap, List.foldl_append]

/-- A key is absent from the mapping exactly when no stored user has that
external ID. -/
theorem buildUserMap_eq_none_iff (l : List User) (k : String) :
    buildUserMap l k = none ↔ ∀ u ∈ l, u.ExternalUserID ≠ k := by
  induction l using List.reverseRecOn with
  | nil => simp [buildUserMap_nil]
  | append_singleton l u ih =>
    rw [buildUserMap_append_singleton]
    by_cases hk : k = u.ExternalUserID
    · simp only [hk, if_true]
      constructor
      · intro h
        cases h
      · intro h
        exact absurd rfl (h u (by simp))
    · simp only [hk, if_false, ih, List.mem_append, List.mem_singleton]
      constructor
      · intro h v hv
        rcases hv with hv | hv
        · exact h v hv
        · subst hv; exact fun heq => hk heq.symm
      · intro h v hv
        exact h v (Or.inl hv)

/-- A value of the mapping is the internal ID of a stored user with that
external ID. -/
theorem buildUserMap_eq_some (l : List User) (k : String) (i : UUID) :
    buildUserMap l k = some i → ∃ u ∈ l, u.ExternalUserID = k ∧ u.ID = i := by
  induction l using List.reverseRecOn with
  | nil => simp [buildUserMap_nil]
  | append_singleton l u ih =>
    rw [buildUserMap_append_singleton]
    by_cases hk : k = u.ExternalUserID
    · simp only [hk, if_true, Option.some.injEq]
      intro h
      exact ⟨u, by simp, rfl, h⟩
    · simp only [hk, if_false]
      intro h
      obtain ⟨v, hv, h1, h2⟩ := ih h
      exact ⟨v, by simp [hv], h1, h2⟩

/-! ## The calls of the per-user loop -/

/-- Every call of the loop is a `GetEmails` for a fetched user that resolves,
with the tenant and the watermark of the run, or a `SaveEmails`. -/
theorem syncUserEmails_events {σ : Type} (repo : Repository σ) (client : ProviderClient σ)
    (tenantID : UUID) (userMap : String → Option UUID) (lastSyncTime : Time)
    (users : List User) :
    ∀ (w : σ) (total : Nat),
      ∀ ev ∈ (syncUserEmails repo client tenantID userMap lastSyncTime users w total).events,
        (∃ u ∈ users, ∃ res, userMap u.ExternalUserID ≠ none ∧
          ev = .GetEmails tenantID u.ExternalUserID lastSyncTime res) ∨
        (∃ batch res, ev = .SaveEmails batch res) := by
  induction users with
  | nil =>
    intro w total ev hev
    rw [syncUserEmails_nil] at hev
    simp [Run.events] at hev
  | cons u rest ih =>
    intro w total ev hev
    have lift : ∀ (w1 : σ) (n : Nat),
        ev ∈ (syncUserEmails repo client tenantID userMap lastSyncTime rest w1 n).events →
        (∃ v ∈ u :: rest, ∃ res, userMap v.ExternalUserID ≠ none ∧
          ev = .GetEmails tenantID v.ExternalUserID lastSyncTime res) ∨
        (∃ batch res, ev = .SaveEmails batch res) := by
      intro w1 n h1
      rcases ih w1 n ev h1 with ⟨v, hv, res, h2, h3⟩ | h2
      · exact Or.inl ⟨v, List.mem_cons_of_mem _ hv, res, h2, h3⟩
      · exact Or.inr h2
    have here : ∀ (i : UUID) (res : Except GoError (List Email)),
        userMap u.ExternalUserID = some i →
        ev = .GetEmails tenantID u.ExternalUserID lastSyncTime res →
        (∃ v ∈ u :: rest, ∃ res, userMap v.ExternalUserID ≠ none ∧
          ev = .GetEmails tenantID v.ExternalUserID lastSyncTime res) ∨
        (∃ batch res, ev = .SaveEmails batch res) := by
      intro i res hmap h1
      exact Or.inl ⟨u, List.mem_cons_self _ _, res, by simp [hmap], h1⟩
    rcases syncUserEmails_cons repo client tenantID userMap lastSyncTime u rest w total with
      ⟨_, h⟩ | ⟨i, err, w1, hmap, _, h⟩ | ⟨i, w1, hmap, _, h⟩ |
      ⟨i, emails, w1, err, w2, hmap, _, _, _, h⟩ | ⟨i, emails, w1, w2, hmap, _, _, _, h⟩
    · rw [h] at hev
      exact lift w total hev
    · rw [h] at hev
      simp only [Run.after_events, List.map_cons, List.map_nil, List.singleton_append,
        List.mem_cons] at hev
      rcases hev with hev | hev
      · exact here i _ hmap hev
      · exact lift w1 total hev
    · rw [h] at hev
      simp only [Run.after_events, List.map_cons, List.map_nil, List.singleton_append,
        List.mem_cons] at hev
      rcases hev with hev | hev
      · exact here i _ hmap hev
      · exact lift w1 total hev
    · rw [h] at hev
      simp only [Run.events, List.map_cons, List.map_nil, List.mem_cons, List.mem_singleton,
        List.not_mem_nil, or_false] at hev
      rcases hev with hev | hev
      · exact here i _ hmap hev
      · exact Or.inr ⟨_, _, hev⟩
    · rw [h] at hev
      simp only [Run.after_events, List.map_cons, List.map_nil, List.cons_append,
        List.nil_append, List.mem_cons] at hev
      rcases hev with hev | hev | hev
      · exact here i _ hmap hev
      · exact Or.inr ⟨_, _, hev⟩
      · exact lift w2 _ hev

/-- Every batch the loop passes to `SaveEmails` is the result of a successful
`GetEmails` call of the loop for a fetched user, stamped with the internal ID the
mapping gives for that user. -/
theorem syncUserEmails_saved {σ : Type} (repo : Repository σ) (client : ProviderClient σ)
    (tenantID : UUID) (userMap : String → Option UUID) (lastSyncTime : Time)
    (users : List User) (batch : List Email) (res : Option GoError) :
    ∀ (w : σ) (total : Nat),
      .SaveEmails batch res ∈
        (syncUserEmails repo client tenantID userMap lastSyncTime users w total).events →
      ∃ u ∈ users, ∃ emails i,
        .GetEmails tenantID u.ExternalUserID lastSyncTime (.ok emails) ∈
          (syncUserEmails repo client tenantID userMap lastSyncTime users w total).events ∧
        userMap u.ExternalUserID = some i ∧ batch = stampUserID i emails := by
  induction users with
  | nil =>
    intro w total hev
    rw [syncUserEmails_nil] at hev
    simp [Run.events] at hev
  | cons u rest ih =>
    intro w total hev
    rcases syncUserEmails_cons repo client tenantID userMap lastSyncTime u rest w total with
      ⟨_, h⟩ | ⟨i, err, w1, hmap, _, h⟩ | ⟨i, w1, hmap, _, h⟩ |
      ⟨i, emails, w1, err, w2, hmap, _, _, _, h⟩ | ⟨i, emails, w1, w2, hmap, _, _, _, h⟩
    · rw [h] at hev ⊢
      obtain ⟨v, hv, emails, i, h1, h2, h3⟩ := ih w total hev
      exact ⟨v, List.mem_cons_of_mem _ hv, emails, i, h1, h2, h3⟩
    · rw [h] at hev ⊢
      simp only [Run.after_events, List.map_cons, List.map_nil, List.singleton_append,
        List.mem_cons] at hev ⊢
      rcases hev with hev | hev
      · cases hev
      · obtain ⟨v, hv, emails, j, h1, h2, h3⟩ := ih w1 total hev
        exact ⟨v, Or.inr hv, emails, j, Or.inr h1, h2, h3⟩
    · rw [h] at hev ⊢
      simp only [Run.after_events, List.map_cons, List.map_nil, List.singleton_append,
        List.mem_cons] at hev ⊢
      rcases hev with hev | hev
      · cases hev
      · obtain ⟨v, hv, emails, j, h1, h2, h3⟩ := ih w1 total hev
        exact ⟨v, Or.inr hv, emails, j, Or.inr h1, h2, h3⟩
    · rw [h] at hev ⊢
      simp only [Run.events, List.map_cons, List.map_nil, List.mem_cons, List.mem_singleton,
        List.not_mem_nil, or_false] at hev ⊢
      rcases hev with hev | hev
      · cases hev
      · cases hev
        exact ⟨u, Or.inl rfl, emails, i, Or.inl rfl, hmap, rfl⟩
    · rw [h] at hev ⊢
      simp only [Run.after_events, List.map_cons, List.map_nil, List.cons_append,
        List.nil_append, List.mem_cons] at hev ⊢
      rcases hev with hev | hev | hev
      · cases hev
      · cases hev
        exact ⟨u, Or.inl rfl, emails, i, Or.inl rfl, hmap, rfl⟩
      · obtain ⟨v, hv, emails1, j, h1, h2, h3⟩ := ih w2 _ hev
        exact ⟨v, Or.inr hv, emails1, j, Or.inr (Or.inr h1), h2, h3⟩

/-! ## Identity resolution -/

/-- C4: in every run of `SyncTenant`, a batch passed to `SaveEmails` is the
result `emails` of a successful `GetEmails` call of that run for a fetched user
`u`, in which every email has `UserID` replaced by the internal ID of a user `du`
returned by the run's `GetUsersByTenant` whose `ExternalUserID` equals that of
`u` (the entry of the canonical mapping); the value does not depend on the
in-memory `u.ID` nor on the `UserID` the client put on the email, and every other
field of every email is passed through unchanged. -/
theorem SyncTenant_identity_resolution {σ : Type} (s : Service σ) (tenantID : UUID)
    (provider : Provider) (w : σ) (batch : List Email) (res : Option GoError)
    (hsaved : .SaveEmails batch res ∈ (SyncTenant s tenantID provider w).events) :
    ∃ (lastSyncTime : Time) (users dbUsers : List User),
      .GetUsers tenantID (.ok users) ∈ (SyncTenant s tenantID provider w).events ∧
      .GetUsersByTenant tenantID (.ok dbUsers) ∈ (SyncTenant s tenantID provider w).events ∧
      ∃ u ∈ users, ∃ emails,
        .GetEmails tenantID u.ExternalUserID lastSyncTime (.ok emails) ∈
          (SyncTenant s tenantID provider w).events ∧
        ∃ du ∈ dbUsers, du.ExternalUserID = u.ExternalUserID ∧
          buildUserMap dbUsers u.ExternalUserID = some du.ID ∧
          batch = emails.map (fun e => { e with UserID := du.ID }) ∧
          ∀ e ∈ batch, e.UserID = du.ID := by
  cases hclient : s.providers provider with
  | none =>
    have h : SyncTenant s tenantID provider w =
        ⟨some (errorsNew "provider not supported"), [], w, 0⟩ := by
      simp only [SyncTenant, hclient]
    rw [h] at hsaved
    simp [Run.events] at hsaved
  | some client =>
    rcases SyncTenant_cases s client tenantID provider w hclient with
      ⟨err, w1, _, h⟩ | ⟨ts, w1, err, w2, _, _, h⟩ | ⟨ts, w1, users, w2, err, w3, _, _, _, h⟩ |
      ⟨ts, w1, users, w2, w3, err, w4, _, _, _, _, h⟩ |
      ⟨ts, w1, users, w2, w3, dbUsers, w4, _, _, _, _, h⟩
    · rw [h] at hsaved; simp [Run.events] at hsaved
    · rw [h] at hsaved; simp [Run.events] at hsaved
    · rw [h] at hsaved; simp [Run.events] at hsaved
    · rw [h] at hsaved; simp [Run.events] at hsaved
    · rw [h] at hsaved ⊢
      simp only [Run.after_events, List.map_cons, List.map_nil, List.cons_append,
        List.nil_append, List.mem_cons] at hsaved ⊢
      rcases hsaved with hs | hs | hs | hs | hs
      · cases hs
      · cases hs
      · cases hs
      · cases hs
      · obtain ⟨u, hu, emails, i, h1, h2, h3⟩ := syncUserEmails_saved s.repo client tenantID
          (buildUserMap dbUsers) ts users batch res w4 0 hs
        obtain ⟨du, hdu, h4, h5⟩ := buildUserMap_eq_some dbUsers u.ExternalUserID i h2
        subst h5
        refine ⟨ts, users, dbUsers, Or.inr (Or.inl rfl), Or.inr (Or.inr (Or.inr (Or.inl rfl))),
          u, hu, emails, Or.inr (Or.inr (Or.inr (Or.inr h1))), du, hdu, h4, h2, h3, ?_⟩
        intro e he
        rw [h3] at he
        simp only [stampUserID, List.mem_map] at he
        obtain ⟨e0, _, rfl⟩ := he
        rfl

/-! ## Unresolved users -/

theorem resolves_eq_false_iff (dbUsers : List User) (u : User) :
    resolves dbUsers u = false ↔ buildUserMap dbUsers u.ExternalUserID = none := by
  rw [buildUserMap_eq_none_iff]
  simp [resolves]

/-- The loop ignores the users that do not resolve: it runs as on the list of
the users that resolve. -/
theorem syncUserEmails_filter {σ : Type} (repo : Repository σ) (client : ProviderClient σ)
    (tenantID : UUID) (userMap : String → Option UUID) (lastSyncTime : Time)
    (users : List User) :
    ∀ (w : σ) (total : Nat),
      syncUserEmails repo client tenantID userMap lastSyncTime users w total =
        syncUserEmails repo client tenantID userMap lastSyncTime
          (users.filter (fun u => (userMap u.ExternalUserID).isSome)) w total := by
  induction users with
  | nil => intro w total; rfl
  | cons u rest ih =>
    intro w total
    cases hmap : userMap u.ExternalUserID with
    | none =>
      simp only [List.filter_cons, hmap, Option.isSome_none, Bool.false_eq_true, if_false]
      rw [← ih w total]
      simp only [syncUserEmails, hmap]
    | some i =>
      simp only [List.filter_cons, hmap, Option.isSome_some, if_true]
      simp only [syncUserEmails, hmap]
      rcases client.GetEmails tenantID u.ExternalUserID lastSyncTime w with ⟨r, w1⟩
      cases r with
      | error err => simp only [← ih]
      | ok emails =>
        simp only
        split
        · rcases repo.SaveEmails (stampUserID i emails) w1 with ⟨r2, w2⟩
          cases r2 with
          | some err => rfl
          | none => simp only [← ih]
        · simp only [← ih]

/-- C10: once the four preliminary calls have succeeded, the run is the run of
the per-user loop over only those fetched users whose `ExternalUserID` occurs
among the users returned by `GetUsersByTenant`: a fetched user that does not
resolve causes no call and changes neither the result nor the later iterations.
No `GetEmails` call is made for such a user, every `SaveEmails` batch belongs to
a user that resolves, and when no fetched user resolves (in particular with zero
fetched users) `SyncTenant` returns nil without any `GetEmails` or `SaveEmails`
call. -/
theorem SyncTenant_unresolved_skipped {σ : Type} (s : Service σ) (client : ProviderClient σ)
    (tenantID : UUID) (provider : Provider) (w w1 w2 w3 w4 : σ) (lastSyncTime : Time)
    (users dbUsers : List User)
    (hclient : s.providers provider = some client)
    (hsync : s.repo.GetLastSyncTime tenantID provider w = (.ok lastSyncTime, w1))
    (husers : client.GetUsers tenantID w1 = (.ok users, w2))
    (hsave : s.repo.SaveUsers users w2 = (none, w3))
    (hdb : s.repo.GetUsersByTenant tenantID w3 = (.ok dbUsers, w4)) :
    SyncTenant s tenantID provider w =
      Run.after
        [⟨.GetLastSyncTime tenantID provider (.ok lastSyncTime), w1⟩,
         ⟨.GetUsers tenantID (.ok users), w2⟩,
         ⟨.SaveUsers users none, w3⟩,
         ⟨.GetUsersByTenant tenantID (.ok dbUsers), w4⟩]
        (syncUserEmails s.repo client tenantID (buildUserMap dbUsers) lastSyncTime
          (users.filter (resolves dbUsers)) w4 0) ∧
    (∀ u ∈ users, resolves dbUsers u = false →
      ∀ t receivedAfter res, .GetEmails t u.ExternalUserID receivedAfter res ∉
        (SyncTenant s tenantID provider w).events) ∧
    (∀ batch res, .SaveEmails batch res ∈ (SyncTenant s tenantID provider w).events →
      ∃ u ∈ users, resolves dbUsers u = true ∧ ∃ emails i,
        .GetEmails tenantID u.ExternalUserID lastSyncTime (.ok emails) ∈
          (SyncTenant s tenantID provider w).events ∧
        batch = stampUserID i emails) ∧
    ((∀ u ∈ users, resolves dbUsers u = false) →
      (SyncTenant s tenantID provider w).err = none ∧
      (SyncTenant s tenantID provider w).events =
        [.GetLastSyncTime tenantID provider (.ok lastSyncTime),
         .GetUsers tenantID (.ok users), .SaveUsers users none,
         .GetUsersByTenant tenantID (.ok dbUsers)] ∧
      (SyncTenant s tenantID provider w).final = w4) := by
  have hloop := SyncTenant_loop s client tenantID provider w w1 w2 w3 w4 lastSyncTime users
    dbUsers hclient hsync husers hsave hdb
  have hfilter : users.filter (resolves dbUsers) =
      users.filter (fun u => (buildUserMap dbUsers u.ExternalUserID).isSome) := by
    apply List.filter_congr
    intro u _
    cases hr : resolves dbUsers u with
    | false => simp [(resolves_eq_false_iff dbUsers u).mp hr]
    | true =>
      cases hm : buildUserMap dbUsers u.ExternalUserID with
      | none => rw [(resolves_eq_false_iff dbUsers u).mpr hm] at hr; cases hr
      | some i => rfl
  refine ⟨?_, ?_, ?_, ?_⟩
  · rw [hloop, hfilter, ← syncUserEmails_filter]
  · intro u _ hres t receivedAfter res hmem
    rw [hloop] at hmem
    simp only [Run.after_events, List.map_cons, List.map_nil, List.cons_append,
      List.nil_append, List.mem_cons] at hmem
    rcases hmem with hm | hm | hm | hm | hm
    · cases hm
    · cases hm
    · cases hm
    · cases hm
    · rcases syncUserEmails_events s.repo client tenantID (buildUserMap dbUsers) lastSyncTime
        users w4 0 _ hm with ⟨v, _, _, hv, h1⟩ | ⟨_, _, h1⟩
      · simp only [Event.GetEmails.injEq] at h1
        rw [← h1.2.1] at hv
        exact hv ((resolves_eq_false_iff dbUsers u).mp hres)
      · cases h1
  · intro batch res hmem
    rw [hloop] at hmem ⊢
    simp only [Run.after_events, List.map_cons, List.map_nil, List.cons_append,
      List.nil_append, List.mem_cons] at hmem ⊢
    rcases hmem with hm | hm | hm | hm | hm
    · cases hm
    · cases hm
    · cases hm
    · cases hm
    · obtain ⟨u, hu, emails, i, h1, h2, h3⟩ := syncUserEmails_saved s.repo client tenantID
        (buildUserMap dbUsers) lastSyncTime users batch res w4 0 hm
      refine ⟨u, hu, ?_, emails, i, Or.inr (Or.inr (Or.inr (Or.inr h1))), h3⟩
      cases hr : resolves dbUsers u with
      | true => rfl
      | false =>
        rw [(resolves_eq_false_iff dbUsers u).mp hr] at h2
        cases h2
  · intro hnone
    have hnil : users.filter (resolves dbUsers) = [] := by
      rw [List.filter_eq_nil_iff]
      intro u hu
      simp [hnone u hu]
    have hrun := hloop
    rw [syncUserEmails_filter, ← hfilter, hnil, syncUserEmails_nil] at hrun
    rw [hrun]
    simp [Run.events, Run.after]

/-- Instance of C4: in the three-user run the batch saved for "ext-1" carries the
canonical ID 101, not the in-memory ID 1 that the client put on the email. -/
theorem SyncTenant_identity_resolution_witness :
    ∃ (lastSyncTime : Time) (users dbUsers : List User),
      .GetUsers 7 (.ok users) ∈
        (SyncTenant (mockService isolationAnswers ProviderGoogle) 7 ProviderGoogle
          emptyWorld).events ∧
      .GetUsersByTenant 7 (.ok dbUsers) ∈
        (SyncTenant (mockService isolationAnswers ProviderGoogle) 7 ProviderGoogle
          emptyWorld).events ∧
      ∃ u ∈ users, ∃ emails,
        .GetEmails 7 u.ExternalUserID lastSyncTime (.ok emails) ∈
          (SyncTenant (mockService isolationAnswers ProviderGoogle) 7 ProviderGoogle
            emptyWorld).events ∧
        ∃ du ∈ dbUsers, du.ExternalUserID = u.ExternalUserID ∧
          buildUserMap dbUsers u.ExternalUserID = some du.ID ∧
          [testEmail 11 101 "m-1" 100] = emails.map (fun e => { e with UserID := du.ID }) ∧
          ∀ e ∈ [testEmail 11 101 "m-1" 100], e.UserID = du.ID :=
  SyncTenant_identity_resolution (mockService isolationAnswers ProviderGoogle) 7
    ProviderGoogle emptyWorld [testEmail 11 101 "m-1" 100] none (by decide)

/-- Instance of C10: the second of three fetched users is missing from the
stored users; the run fetches and saves for the first and the third only and
succeeds. -/
theorem SyncTenant_unresolved_skipped_witness :
    (SyncTenant (mockService skipAnswers ProviderGoogle) 7 ProviderGoogle emptyWorld).err =
      none ∧
    (SyncTenant (mockService skipAnswers ProviderGoogle) 7 ProviderGoogle emptyWorld).events =
      [.GetLastSyncTime 7 ProviderGoogle (.ok 50), .GetUsers 7 (.ok threeUsers),
       .SaveUsers threeUsers none,
       .GetUsersByTenant 7 (.ok [testUser 101 "ext-1", testUser 103 "ext-3"]),
       .GetEmails 7 "ext-1" 50 (.ok [testEmail 11 1 "m-1" 100]),
       .SaveEmails [testEmail 11 101 "m-1" 100] none,
       .GetEmails 7 "ext-3" 50 (.ok [testEmail 13 3 "m-3" 300]),
       .SaveEmails [testEmail 13 103 "m-3" 300] none] ∧
    ∀ t receivedAfter res, .GetEmails t "ext-2" receivedAfter res ∉
      (SyncTenant (mockService skipAnswers ProviderGoogle) 7 ProviderGoogle emptyWorld).events :=
  ⟨by rfl, by rfl,
    (SyncTenant_unresolved_skipped (mockService skipAnswers ProviderGoogle)
      (MockProviderClient skipAnswers) 7 ProviderGoogle emptyWorld emptyWorld emptyWorld
      emptyWorld emptyWorld 50 threeUsers [testUser 101 "ext-1", testUser 103 "ext-3"]
      rfl rfl rfl rfl rfl).2.1 (testUser 2 "ext-2") (by decide) (by decide)⟩

/-! ## The Microsoft client and the watermark -/

/-- What `microsoftProvider.GetEmails` returns: one email, whatever the watermark. -/
theorem microsoft_GetEmails_eq (env : Env) (tenantID : UUID) (externalUserID : String)
    (receivedAfter : Time) (w : World) :
    (NewMicrosoftProvider env).GetEmails tenantID externalUserID receivedAfter w =
      (.ok [{ ID := env.uuidNew w.uuids, TenantID := tenantID, UserID := uuidNil,
              ExternalMessageID := "msft-123", From := "bill@external.com",
              To := ["satya@msft.example.com"], Cc := [], Bcc := [],
              Subject := "Urgent Invoice", Body := "Please pay this immediately.",
              ReceivedAt := env.timeNow w.ticks + (-1 * Hour),
              Provider := ProviderMicrosoft }],
        { db := w.db, uuids := w.uuids + 1, ticks := w.ticks + 1 }) := rfl

/-- C7 as stated fails: asked for the emails received after the current instant,
the Microsoft client returns an email received one hour before it. -/
theorem microsoft_GetEmails_counterexample :
    ∃ emails, ((NewMicrosoftProvider demoEnv).GetEmails 7 "uuu" (10 * Hour) emptyWorld).1 =
        .ok emails ∧
      ∃ e ∈ emails, e.ReceivedAt = 9 * Hour ∧ ¬ (10 * Hour < e.ReceivedAt) := by
  rw [microsoft_GetEmails_eq]
  refine ⟨_, rfl, _, List.mem_singleton.mpr rfl, ?_, ?_⟩
  · simp [demoEnv, Hour]
  · simp [demoEnv, Hour]

/-- C7 amended: the Microsoft client's `GetEmails` does not filter by the
watermark.  For every tenant, external user ID, `receivedAfter` and clock reading
it returns exactly one email, the message "msft-123", received one hour before
the clock reading; the result is the same for every other `receivedAfter`; so the
returned email is strictly after `receivedAfter` exactly when `receivedAfter` is
more than one hour before the clock reading. -/
theorem microsoft_GetEmails_ignores_watermark (env : Env) (tenantID : UUID)
    (externalUserID : String) (receivedAfter : Time) (w : World) :
    ∃ e : Email,
      ((NewMicrosoftProvider env).GetEmails tenantID externalUserID receivedAfter w).1 =
        .ok [e] ∧
      e.ExternalMessageID = "msft-123" ∧
      e.ReceivedAt = env.timeNow w.ticks - Hour ∧
      (receivedAfter < e.ReceivedAt ↔ receivedAfter + Hour < env.timeNow w.ticks) ∧
      ∀ receivedAfter2 : Time,
        (NewMicrosoftProvider env).GetEmails tenantID externalUserID receivedAfter2 w =
          (NewMicrosoftProvider env).GetEmails tenantID externalUserID receivedAfter w := by
  rw [microsoft_GetEmails_eq]
  refine ⟨_, rfl, rfl, ?_, ?_, ?_⟩
  · show env.timeNow w.ticks + (-1 * Hour) = env.timeNow w.ticks - Hour
    ring
  · show receivedAfter < env.timeNow w.ticks + (-1 * Hour) ↔ _
    constructor <;> intro h <;> linarith
  · intro receivedAfter2
    rfl

/-! ## The canonical mapping is keyed by external ID alone -/

/-- The mapping reads only the external ID and the internal ID of each stored
user. -/
theorem buildUserMap_eq_foldl_pairs (l : List User) :
    buildUserMap l =
      (l.map (fun u => (u.ExternalUserID, u.ID))).foldl
        (fun (m : String → Option UUID) (p : String × UUID) =>
          fun k => if k = p.1 then some p.2 else m k)
        (fun _ => none) := by
  rw [List.foldl_map]
  rfl

/-- The entry of a key is the internal ID of the last stored user with that
external ID. -/
theorem buildUserMap_last (pre : List User) (du : User) (post : List User) (k : String)
    (hk : du.ExternalUserID = k) (hpost : ∀ v ∈ post, v.ExternalUserID ≠ k) :
    buildUserMap (pre ++ du :: post) k = some du.ID := by
  induction post using List.reverseRecOn with
  | nil =>
    rw [buildUserMap_append_singleton]
    simp [hk]
  | append_singleton post v ih =>
    have happ : pre ++ du :: (post ++ [v]) = (pre ++ du :: post) ++ [v] := by simp
    rw [happ, buildUserMap_append_singleton]
    have hv : k ≠ v.ExternalUserID := fun h => hpost v (by simp) h.symm
    simp only [hv, if_false]
    exact ih (fun x hx => hpost x (by simp [hx]))

/-- A value of the mapping comes from the last stored user with that external
ID. -/
theorem buildUserMap_eq_some_last (l : List User) (k : String) (i : UUID) :
    buildUserMap l k = some i →
      ∃ pre du post, l = pre ++ du :: post ∧ du.ExternalUserID = k ∧ du.ID = i ∧
        ∀ v ∈ post, v.ExternalUserID ≠ k := by
  induction l using List.reverseRecOn with
  | nil => simp [buildUserMap_nil]
  | append_singleton l u ih =>
    rw [buildUserMap_append_singleton]
    by_cases hk : k = u.ExternalUserID
    · simp only [hk, if_true, Option.some.injEq]
      intro h
      exact ⟨l, u, [], rfl, rfl, h, by simp⟩
    · simp only [hk, if_false]
      intro h
      obtain ⟨pre, du, post, h1, h2, h3, h4⟩ := ih h
      refine ⟨pre, du, post ++ [u], by simp [h1], h2, h3, ?_⟩
      intro v hv
      rcases List.mem_append.mp hv with hv | hv
      · exact h4 v hv
      · rw [List.mem_singleton.mp hv]
        exact fun heq => hk heq.symm

/-- A batch passed to `SaveEmails` in a run is a successful fetch of that run,
stamped with the entry the mapping built from the run's `GetUsersByTenant` result
has for the fetched user's external ID. -/
theorem SyncTenant_saved_mapping {σ : Type} (s : Service σ) (tenantID : UUID)
    (provider : Provider) (w : σ) (batch : List Email) (res : Option GoError)
    (hsaved : .SaveEmails batch res ∈ (SyncTenant s tenantID provider w).events) :
    ∃ (lastSyncTime : Time) (users dbUsers : List User),
      .GetUsers tenantID (.ok users) ∈ (SyncTenant s tenantID provider w).events ∧
      .GetUsersByTenant tenantID (.ok dbUsers) ∈ (SyncTenant s tenantID provider w).events ∧
      ∃ u ∈ users, ∃ emails i,
        .GetEmails tenantID u.ExternalUserID lastSyncTime (.ok emails) ∈
          (SyncTenant s tenantID provider w).events ∧
        buildUserMap dbUsers u.ExternalUserID = some i ∧ batch = stampUserID i emails := by
  cases hclient : s.providers provider with
  | none =>
    have h : SyncTenant s tenantID provider w =
        ⟨some (errorsNew "provider not supported"), [], w, 0⟩ := by
      simp only [SyncTenant, hclient]
    rw [h] at hsaved
    simp [Run.events] at hsaved
  | some client =>
    rcases SyncTenant_cases s client tenantID provider w hclient with
      ⟨err, w1, _, h⟩ | ⟨ts, w1, err, w2, _, _, h⟩ | ⟨ts, w1, users, w2, err, w3, _, _, _, h⟩ |
      ⟨ts, w1, users, w2, w3, err, w4, _, _, _, _, h⟩ |
      ⟨ts, w1, users, w2, w3, dbUsers, w4, _, _, _, _, h⟩
    · rw [h] at hsaved; simp [Run.events] at hsaved
    · rw [h] at hsaved; simp [Run.events] at hsaved
    · rw [h] at hsaved; simp [Run.events] at hsaved
    · rw [h] at hsaved; simp [Run.events] at hsaved
    · rw [h] at hsaved ⊢
      simp only [Run.after_events, List.map_cons, List.map_nil, List.cons_append,
        List.nil_append, List.mem_cons] at hsaved ⊢
      rcases hsaved with hs | hs | hs | hs | hs
      · cases hs
      · cases hs
      · cases hs
      · cases hs
      · obtain ⟨u, hu, emails, i, h1, h2, h3⟩ := syncUserEmails_saved s.repo client tenantID
          (buildUserMap dbUsers) ts users batch res w4 0 hs
        exact ⟨ts, users, dbUsers, Or.inr (Or.inl rfl),
          Or.inr (Or.inr (Or.inr (Or.inl rfl))), u, hu, emails, i,
          Or.inr (Or.inr (Or.inr (Or.inr h1))), h2, h3⟩

/-! ## The watermark query of the repository -/

/-- The fold of `max` returns its start value or an element, and bounds both. -/
theorem foldl_max_spec (ts : List Int) :
    ∀ t : Int, (ts.foldl max t = t ∨ ts.foldl max t ∈ ts) ∧ t ≤ ts.foldl max t ∧
      ∀ x ∈ ts, x ≤ ts.foldl max t := by
  induction ts with
  | nil => intro t; simp
  | cons a rest ih =>
    intro t
    obtain ⟨h1, h2, h3⟩ := ih (max t a)
    simp only [List.foldl_cons, List.mem_cons]
    refine ⟨?_, le_trans (le_max_left t a) h2, ?_⟩
    · rcases h1 with h1 | h1
      · rcases max_choice t a with hm | hm
        · left; rw [h1, hm]
        · right; left; rw [h1, hm]
      · right; right; exact h1
    · intro x hx
      rcases hx with hx | hx
      · subst hx; exact le_trans (le_max_right t x) h2
      · exact h3 x hx

theorem sqlMax_eq_none_iff (ts : List Int) : sqlMax ts = none ↔ ts = [] := by
  cases ts <;> simp [sqlMax]

/-- The aggregate is an element of the column and bounds the column. -/
theorem sqlMax_eq_some (ts : List Int) (m : Int) (h : sqlMax ts = some m) :
    m ∈ ts ∧ ∀ x ∈ ts, x ≤ m := by
  cases ts with
  | nil => simp [sqlMax] at h
  | cons t rest =>
    simp only [sqlMax, Option.some.injEq] at h
    obtain ⟨h1, h2, h3⟩ := foldl_max_spec rest t
    rw [h] at h1 h2 h3
    refine ⟨?_, ?_⟩
    · rcases h1 with h1 | h1
      · rw [h1]; exact List.mem_cons_self _ _
      · exact List.mem_cons_of_mem _ h1
    · intro x hx
      rcases List.mem_cons.mp hx with hx | hx
      · rw [hx]; exact h2
      · exact h3 x hx

theorem mem_emailsOf (db : DB) (tenantID : UUID) (provider : Provider) (r : EmailRow) :
    r ∈ emailsOf db tenantID provider ↔
      r ∈ db.emails ∧ r.tenant_id = tenantID ∧ r.provider = provider := by
  simp [emailsOf]

/-- On a working database `GetLastSyncTime` returns what the query gives. -/
theorem GetLastSyncTime_eq (db : DB) (tenantID : UUID) (provider : Provider)
    (hworks : db.fault = none) :
    duckDBRepo.GetLastSyncTime db tenantID provider =
      (.ok (((sqlMax ((emailsOf db tenantID provider).map (fun r => r.received_at))).map
        timestampToTime).getD zeroTime), db) := by
  simp only [duckDBRepo.GetLastSyncTime, queryMaxReceivedAt, hworks]
  cases sqlMax ((emailsOf db tenantID provider).map (fun r => r.received_at)) <;> rfl

/-- On working databases the result of `GetLastSyncTime` depends only on the
emails that match tenant and provider. -/
theorem GetLastSyncTime_congr (db db2 : DB) (tenantID : UUID) (provider : Provider)
    (hworks : db.fault = none) (hworks2 : db2.fault = none)
    (hsame : emailsOf db2 tenantID provider = emailsOf db tenantID provider) :
    (duckDBRepo.GetLastSyncTime db2 tenantID provider).1 =
      (duckDBRepo.GetLastSyncTime db tenantID provider).1 := by
  rw [GetLastSyncTime_eq db _ _ hworks, GetLastSyncTime_eq db2 _ _ hworks2, hsame]

/-- Truncation to microseconds commutes with taking the later of two instants. -/
theorem timeToTimestamp_max (a b : Time) :
    max (timeToTimestamp a) (timeToTimestamp b) = timeToTimestamp (max a b) := by
  unfold timeToTimestamp
  rcases le_total a b with h | h
  · rw [max_eq_right h, max_eq_right (Int.ediv_le_ediv (by norm_num) h)]
  · rw [max_eq_left h, max_eq_left (Int.ediv_le_ediv (by norm_num) h)]

/-- Three emails with distinct IDs and distinct message IDs, of one tenant and
provider and with instants in range, are all stored from empty. -/
theorem SaveEmails_three (eng : Engine) (a b c : Email)
    (hab : a.ID ≠ b.ID) (hac : a.ID ≠ c.ID) (hbc : b.ID ≠ c.ID)
    (mab : a.ExternalMessageID ≠ b.ExternalMessageID)
    (mac : a.ExternalMessageID ≠ c.ExternalMessageID)
    (mbc : b.ExternalMessageID ≠ c.ExternalMessageID)
    (ha : eng.timestampInRange a.ReceivedAt = true)
    (hb : eng.timestampInRange b.ReceivedAt = true)
    (hc : eng.timestampInRange c.ReceivedAt = true) :
    duckDBRepo.SaveEmails eng emptyDB [a, b, c] =
      (none, { users := [], emails := [toEmailRow a, toEmailRow b, toEmailRow c],
               fault := none }) := by
  simp [duckDBRepo.SaveEmails, emptyDB, execInsert, emailTargetConflict, emailIdConflict,
    toEmailRow, ha, hb, hc, hab, hac, hbc, mab, mac, mbc]

/-- C9 as stated fails: after persisting emails received 100, 200 and 300
nanoseconds after the zero time, `GetLastSyncTime` returns the zero timestamp,
not 300, because `received_at` keeps whole microseconds only. -/
theorem GetLastSyncTime_counterexample :
    nanoWatermarkDB.emails.length = 3 ∧
    (duckDBRepo.GetLastSyncTime nanoWatermarkDB 7 ProviderMicrosoft).1 = .ok zeroTime ∧
    (duckDBRepo.GetLastSyncTime nanoWatermarkDB 7 ProviderMicrosoft).1 ≠ .ok 300 := by
  decide

/-- C9 amended: on a database whose connection works, `GetLastSyncTime` changes
nothing and returns no error; it returns the zero timestamp when no persisted
email matches both tenant and provider, and otherwise the `received_at` of a
matching row that is at least the `received_at` of every matching row (their
maximum); the result is the same on any other working database with the same
matching rows, so emails of other tenants or providers never influence it.  A
persisted `received_at` is the email's `ReceivedAt` truncated to whole
microseconds: after persisting, from empty, three emails of the tenant and
provider with distinct IDs, distinct message IDs and instants in range,
`GetLastSyncTime` returns the latest of the three instants truncated to
microseconds. -/
theorem GetLastSyncTime_watermark :
    (∀ (db : DB) (tenantID : UUID) (provider : Provider), db.fault = none →
      (duckDBRepo.GetLastSyncTime db tenantID provider).2 = db ∧
      ((∀ r ∈ db.emails, ¬ (r.tenant_id = tenantID ∧ r.provider = provider)) →
        (duckDBRepo.GetLastSyncTime db tenantID provider).1 = .ok zeroTime) ∧
      ((∃ r ∈ db.emails, r.tenant_id = tenantID ∧ r.provider = provider) →
        ∃ m : Int,
          (duckDBRepo.GetLastSyncTime db tenantID provider).1 = .ok (timestampToTime m) ∧
          (∃ r ∈ db.emails, r.tenant_id = tenantID ∧ r.provider = provider ∧
            r.received_at = m) ∧
          ∀ r ∈ db.emails, r.tenant_id = tenantID → r.provider = provider →
            r.received_at ≤ m) ∧
      (∀ db2 : DB, db2.fault = none →
        emailsOf db2 tenantID provider = emailsOf db tenantID provider →
        (duckDBRepo.GetLastSyncTime db2 tenantID provider).1 =
          (duckDBRepo.GetLastSyncTime db tenantID provider).1)) ∧
    (∀ (eng : Engine) (tenantID : UUID) (provider : Provider) (a b c : Email),
      a.TenantID = tenantID → b.TenantID = tenantID → c.TenantID = tenantID →
      a.Provider = provider → b.Provider = provider → c.Provider = provider →
      a.ID ≠ b.ID → a.ID ≠ c.ID → b.ID ≠ c.ID →
      a.ExternalMessageID ≠ b.ExternalMessageID →
      a.ExternalMessageID ≠ c.ExternalMessageID →
      b.ExternalMessageID ≠ c.ExternalMessageID →
      eng.timestampInRange a.ReceivedAt = true → eng.timestampInRange b.ReceivedAt = true →
      eng.timestampInRange c.ReceivedAt = true →
        (duckDBRepo.SaveEmails eng emptyDB [a, b, c]).1 = none ∧
        (duckDBRepo.SaveEmails eng emptyDB [a, b, c]).2.emails.map (fun r => r.received_at) =
          [timeToTimestamp a.ReceivedAt, timeToTimestamp b.ReceivedAt,
           timeToTimestamp c.ReceivedAt] ∧
        (duckDBRepo.GetLastSyncTime (duckDBRepo.SaveEmails eng emptyDB [a, b, c]).2 tenantID
          provider).1 = .ok (truncMicro (max (max a.ReceivedAt b.ReceivedAt) c.ReceivedAt))) := by
  refine ⟨?_, ?_⟩
  · intro db tenantID provider hworks
    refine ⟨?_, ?_, ?_, ?_⟩
    · rw [GetLastSyncTime_eq db _ _ hworks]
    · intro hnone
      have hempty : emailsOf db tenantID provider = [] := by
        rw [List.eq_nil_iff_forall_not_mem]
        intro r hr
        rw [mem_emailsOf] at hr
        exact hnone r hr.1 hr.2
      rw [GetLastSyncTime_eq db _ _ hworks, hempty]
      rfl
    · rintro ⟨r0, hr0, ht0, hp0⟩
      cases hmax : sqlMax ((emailsOf db tenantID provider).map (fun r => r.received_at)) with
      | none =>
        rw [sqlMax_eq_none_iff, List.map_eq_nil_iff] at hmax
        have : r0 ∈ emailsOf db tenantID provider := (mem_emailsOf _ _ _ _).mpr ⟨hr0, ht0, hp0⟩
        rw [hmax] at this
        cases this
      | some m =>
        obtain ⟨hmem, hge⟩ := sqlMax_eq_some _ m hmax
        refine ⟨m, ?_, ?_, ?_⟩
        · rw [GetLastSyncTime_eq db _ _ hworks, hmax]
          rfl
        · obtain ⟨r, hr, hrm⟩ := List.mem_map.mp hmem
          rw [mem_emailsOf] at hr
          exact ⟨r, hr.1, hr.2.1, hr.2.2, hrm⟩
        · intro r hr ht hp
          exact hge _ (List.mem_map.mpr ⟨r, (mem_emailsOf _ _ _ _).mpr ⟨hr, ht, hp⟩, rfl⟩)
    · intro db2 h2 hsame
      exact GetLastSyncTime_congr db db2 tenantID provider hworks h2 hsame
  · intro eng tenantID provider a b c hta htb htc hpa hpb hpc hab hac hbc mab mac mbc ha hb hc
    rw [SaveEmails_three eng a b c hab hac hbc mab mac mbc ha hb hc]
    refine ⟨rfl, rfl, ?_⟩
    rw [GetLastSyncTime_eq _ _ _ rfl]
    simp only [emailsOf, toEmailRow, hta, htb, htc, hpa, hpb, hpc, decide_True, Bool.and_self,
      List.filter_cons_of_pos, List.filter_nil, List.map_cons, List.map_nil, sqlMax,
      List.foldl_cons, List.foldl_nil, Option.map_some', Option.getD_some]
    rw [timeToTimestamp_max, timeToTimestamp_max]
    rfl

/-- Instance of C9 amended: an empty database gives the zero timestamp; with
Microsoft emails of tenant 7 received 100, 300 and 200 microseconds after the zero
time stored next to later emails of another provider and of another tenant the
watermark of (tenant 7, Microsoft) is 300 microseconds; and three emails
received at 1100, 2900 and 2100 nanoseconds give 2000 nanoseconds. -/
theorem GetLastSyncTime_watermark_witness :
    (duckDBRepo.GetLastSyncTime emptyDB 7 ProviderMicrosoft).1 = .ok zeroTime ∧
    (∃ m : Int,
      (duckDBRepo.GetLastSyncTime watermarkDB 7 ProviderMicrosoft).1 =
        .ok (timestampToTime m) ∧
      (∃ r ∈ watermarkDB.emails, r.tenant_id = 7 ∧ r.provider = ProviderMicrosoft ∧
        r.received_at = m) ∧
      ∀ r ∈ watermarkDB.emails, r.tenant_id = 7 → r.provider = ProviderMicrosoft →
        r.received_at ≤ m) ∧
    (duckDBRepo.GetLastSyncTime watermarkDB 7 ProviderMicrosoft).1 = .ok 300000 ∧
    watermarkDB.emails.length = 5 ∧
    (duckDBRepo.GetLastSyncTime
      (duckDBRepo.SaveEmails demoEngine emptyDB
        [watermarkEmail 31 "n-1" 1100, watermarkEmail 32 "n-3" 2900,
         watermarkEmail 33 "n-2" 2100]).2 7 ProviderMicrosoft).1 = .ok 2000 :=
  ⟨((GetLastSyncTime_watermark.1 emptyDB 7 ProviderMicrosoft rfl).2.1 (by decide)),
    ((GetLastSyncTime_watermark.1 watermarkDB 7 ProviderMicrosoft rfl).2.2.1 (by decide)),
    by decide, by decide,
    (GetLastSyncTime_watermark.2 demoEngine 7 ProviderMicrosoft
      (watermarkEmail 31 "n-1" 1100) (watermarkEmail 32 "n-3" 2900)
      (watermarkEmail 33 "n-2" 2100) rfl rfl rfl rfl rfl rfl
      (by decide) (by decide) (by decide) (by decide) (by decide) (by decide)
      (by decide) (by decide) (by decide)).2.2⟩

/-! ## Running the built-in Microsoft sync twice -/

theorem microsoft_GetUsers_eq (env : Env) (tenantID : UUID) (w : World) :
    (NewMicrosoftProvider env).GetUsers tenantID w =
      (.ok (microsoftFetch env tenantID w.uuids),
        { db := w.db, uuids := w.uuids + 4, ticks := w.ticks }) := rfl

theorem duckDB_GetLastSyncTime_works (eng : Engine) (tenantID : UUID) (provider : Provider)
    (w : World) (hworks : w.db.fault = none) :
    ∃ ts, (duckDB eng).GetLastSyncTime tenantID provider w = (.ok ts, w) := by
  simp only [duckDB, GetLastSyncTime_eq w.db tenantID provider hworks]
  exact ⟨_, rfl⟩

/-- A batch without violation is stored whole, after the stored rows. -/
theorem duckDB_SaveUsers_fresh (eng : Engine) (users : List User) (w : World)
    (hworks : w.db.fault = none) (hfresh : firstViolation w.db.users users = none) :
    (duckDB eng).SaveUsers users w =
      (none, { w with db := { w.db with users := w.db.users ++ users } }) := by
  cases users with
  | nil =>
    simp only [duckDB, duckDBRepo.SaveUsers, List.length_nil, if_true, List.append_nil]
  | cons u rest => simp [duckDB, duckDBRepo.SaveUsers, hworks, hfresh]

theorem duckDB_GetUsersByTenant_works (eng : Engine) (tenantID : UUID) (w : World)
    (hworks : w.db.fault = none) :
    (duckDB eng).GetUsersByTenant tenantID w =
      (.ok (w.db.users.filter (fun u => u.TenantID = tenantID)), w) := by
  simp [duckDB, duckDBRepo.GetUsersByTenant, hworks]

/-- An email whose instant is out of range, or whose message is already stored
for the tenant and provider, leaves the database as it is. -/
theorem duckDB_SaveEmails_ignored (eng : Engine) (e : Email) (w : World)
    (hworks : w.db.fault = none)
    (h : eng.timestampInRange e.ReceivedAt = false ∨ emailTargetConflict w.db.emails e = true) :
    (duckDB eng).SaveEmails [e] w = (none, w) := by
  obtain ⟨⟨users, emails, fault⟩, uuids, ticks⟩ := w
  simp only at hworks h
  subst hworks
  rcases h with h | h
  · simp [duckDB, duckDBRepo.SaveEmails, execInsert, h]
  · by_cases hr : eng.timestampInRange e.ReceivedAt = false
    · simp [duckDB, duckDBRepo.SaveEmails, execInsert, hr]
    · simp [duckDB, duckDBRepo.SaveEmails, execInsert, hr, h]

/-- An email with an instant in range is stored into an empty table. -/
theorem duckDB_SaveEmails_first (eng : Engine) (e : Email) (w : World)
    (hworks : w.db.fault = none) (hempty : w.db.emails = [])
    (hrange : eng.timestampInRange e.ReceivedAt = true) :
    (duckDB eng).SaveEmails [e] w =
      (none, { w with db := { w.db with emails := [toEmailRow e] } }) := by
  simp [duckDB, duckDBRepo.SaveEmails, hworks, execInsert, hrange, hempty,
    emailTargetConflict, emailIdConflict]

/-- Once the message "msft-123" of the tenant is stored, the per-user loop with
the built-in Microsoft client succeeds and leaves the database as it is. -/
theorem microsoft_loop_conflict (eng : Engine) (env : Env) (tenantID : UUID)
    (userMap : String → Option UUID) (lastSyncTime : Time) (db : DB)
    (hworks : db.fault = none)
    (hstored : ∃ r ∈ db.emails, r.tenant_id = tenantID ∧ r.external_message_id = "msft-123" ∧
      r.provider = ProviderMicrosoft)
    (users : List User) :
    ∀ (w : World) (total : Nat), w.db = db →
      (syncUserEmails (duckDB eng) (NewMicrosoftProvider env) tenantID userMap lastSyncTime
        users w total).err = none ∧
      (syncUserEmails (duckDB eng) (NewMicrosoftProvider env) tenantID userMap lastSyncTime
        users w total).final.db = db ∧
      w.uuids ≤ (syncUserEmails (duckDB eng) (NewMicrosoftProvider env) tenantID userMap
        lastSyncTime users w total).final.uuids := by
  induction users with
  | nil =>
    intro w total hw
    rw [syncUserEmails_nil]
    exact ⟨rfl, hw, le_refl _⟩
  | cons u rest ih =>
    intro w total hw
    have hignored : ∀ i : UUID,
        (duckDB eng).SaveEmails
          [{ ID := env.uuidNew w.uuids, TenantID := tenantID, UserID := i,
             ExternalMessageID := "msft-123", From := "bill@external.com",
             To := ["satya@msft.example.com"], Cc := [], Bcc := [],
             Subject := "Urgent Invoice", Body := "Please pay this immediately.",
             ReceivedAt := env.timeNow w.ticks + (-1 * Hour),
             Provider := ProviderMicrosoft }]
          { db := w.db, uuids := w.uuids + 1, ticks := w.ticks + 1 } =
        (none, { db := w.db, uuids := w.uuids + 1, ticks := w.ticks + 1 }) := by
      intro i
      apply duckDB_SaveEmails_ignored
      · show w.db.fault = none
        rw [hw]; exact hworks
      · right
        show emailTargetConflict w.db.emails _ = true
        rw [hw]
        obtain ⟨r, hr, h1, h2, h3⟩ := hstored
        simp only [emailTargetConflict, List.any_eq_true]
        exact ⟨r, hr, by simp [h1, h2, h3]⟩
    rcases syncUserEmails_cons (duckDB eng) (NewMicrosoftProvider env) tenantID userMap
        lastSyncTime u rest w total with
      ⟨_, h⟩ | ⟨i, err, w1, _, hget, h⟩ | ⟨i, w1, _, hget, h⟩ |
      ⟨i, emails, w1, err, w2, _, hget, _, hsave, h⟩ |
      ⟨i, emails, w1, w2, _, hget, _, hsave, h⟩
    · rw [h]; exact ih w total hw
    · rw [microsoft_GetEmails_eq] at hget
      simp at hget
    · rw [microsoft_GetEmails_eq] at hget
      simp at hget
    · rw [microsoft_GetEmails_eq] at hget
      simp only [Prod.mk.injEq, Except.ok.injEq] at hget
      obtain ⟨h1, h2⟩ := hget
      subst h1 h2
      rw [stampUserID, List.map_cons, List.map_nil, hignored i] at hsave
      simp at hsave
    · rw [microsoft_GetEmails_eq] at hget
      simp only [Prod.mk.injEq, Except.ok.injEq] at hget
      obtain ⟨h1, h2⟩ := hget
      subst h1 h2
      rw [stampUserID, List.map_cons, List.map_nil, hignored i] at hsave
      simp only [Prod.mk.injEq, true_and] at hsave
      have hw2 : w2.db = db := by rw [← hsave]; exact hw
      have hu2 : w.uuids ≤ w2.uuids := by
        rw [← hsave]
        simp
      rw [h]
      obtain ⟨h1, h2, h3⟩ := ih w2 (total + _) hw2
      exact ⟨h1, h2, le_trans hu2 h3⟩

theorem NewService_microsoft (env : Env) (repo : Repository World) :
    (NewService env repo).providers ProviderMicrosoft = some (NewMicrosoftProvider env) := by
  simp [NewService]

/-- A sync of the built-in Microsoft provider in a working world where the
message "msft-123" of the tenant is already stored and where the two freshly
fetched users violate no constraint: it succeeds, stores no email, appends the
two users, and generates at least four identifiers. -/
theorem SyncTenant_microsoft_stored (eng : Engine) (env : Env) (tenantID : UUID) (w : World)
    (hworks : w.db.fault = none)
    (hstored : ∃ r ∈ w.db.emails, r.tenant_id = tenantID ∧
      r.external_message_id = "msft-123" ∧ r.provider = ProviderMicrosoft)
    (hfresh : firstViolation w.db.users (microsoftFetch env tenantID w.uuids) = none) :
    (SyncTenant (NewService env (duckDB eng)) tenantID ProviderMicrosoft w).err = none ∧
    (SyncTenant (NewService env (duckDB eng)) tenantID ProviderMicrosoft w).final.db =
      { w.db with users := w.db.users ++ microsoftFetch env tenantID w.uuids } ∧
    w.uuids + 4 ≤
      (SyncTenant (NewService env (duckDB eng)) tenantID ProviderMicrosoft w).final.uuids := by
  obtain ⟨ts, hsync⟩ := duckDB_GetLastSyncTime_works eng tenantID ProviderMicrosoft w hworks
  have hrun := SyncTenant_loop (NewService env (duckDB eng)) (NewMicrosoftProvider env)
    tenantID ProviderMicrosoft w w _ _ _ ts _ _ (NewService_microsoft env (duckDB eng)) hsync
    (microsoft_GetUsers_eq env tenantID w)
    (duckDB_SaveUsers_fresh eng _ _ hworks hfresh)
    (duckDB_GetUsersByTenant_works eng tenantID _ hworks)
  rw [hrun]
  simp only [Run.after_err, Run.after_final]
  exact microsoft_loop_conflict eng env tenantID _ ts
    { w.db with users := w.db.users ++ microsoftFetch env tenantID w.uuids }
    hworks hstored _ _ 0 rfl

/-- With an empty `emails` table, a working database, a first user that resolves
and a clock reading in range, the loop with the built-in Microsoft client stores
exactly one row: the email fetched for the first user. -/
theorem microsoft_loop_first (eng : Engine) (env : Env) (tenantID : UUID)
    (userMap : String → Option UUID) (lastSyncTime : Time) (u : User) (rest : List User)
    (w : World) (total : Nat) (i : UUID)
    (hworks : w.db.fault = none) (hempty : w.db.emails = [])
    (hrange : eng.timestampInRange (env.timeNow w.ticks + (-1 * Hour)) = true)
    (hmap : userMap u.ExternalUserID = some i) :
    (syncUserEmails (duckDB eng) (NewMicrosoftProvider env) tenantID userMap lastSyncTime
      (u :: rest) w total).err = none ∧
    (syncUserEmails (duckDB eng) (NewMicrosoftProvider env) tenantID userMap lastSyncTime
      (u :: rest) w total).final.db =
      { w.db with emails := [microsoftRow env tenantID i w.uuids w.ticks] } ∧
    w.uuids ≤ (syncUserEmails (duckDB eng) (NewMicrosoftProvider env) tenantID userMap
      lastSyncTime (u :: rest) w total).final.uuids := by
  have hstore : ∀ j : UUID,
      (duckDB eng).SaveEmails
        [{ ID := env.uuidNew w.uuids, TenantID := tenantID, UserID := j,
           ExternalMessageID := "msft-123", From := "bill@external.com",
           To := ["satya@msft.example.com"], Cc := [], Bcc := [],
           Subject := "Urgent Invoice", Body := "Please pay this immediately.",
           ReceivedAt := env.timeNow w.ticks + (-1 * Hour),
           Provider := ProviderMicrosoft }]
        { db := w.db, uuids := w.uuids + 1, ticks := w.ticks + 1 } =
      (none, { db := { w.db with emails := [microsoftRow env tenantID j w.uuids w.ticks] },
               uuids := w.uuids + 1, ticks := w.ticks + 1 }) := by
    intro j
    rw [duckDB_SaveEmails_first eng _ _ (by exact hworks) (by exact hempty) (by exact hrange)]
    rfl
  rcases syncUserEmails_cons (duckDB eng) (NewMicrosoftProvider env) tenantID userMap
      lastSyncTime u rest w total with
    ⟨hnone, _⟩ | ⟨j, err, w1, _, hget, h⟩ | ⟨j, w1, _, hget, h⟩ |
    ⟨j, emails, w1, err, w2, _, hget, _, hsave, h⟩ |
    ⟨j, emails, w1, w2, hj, hget, _, hsave, h⟩
  · rw [hmap] at hnone; cases hnone
  · rw [microsoft_GetEmails_eq] at hget
    simp at hget
  · rw [microsoft_GetEmails_eq] at hget
    simp at hget
  · rw [microsoft_GetEmails_eq] at hget
    simp only [Prod.mk.injEq, Except.ok.injEq] at hget
    obtain ⟨h1, h2⟩ := hget
    subst h1 h2
    rw [stampUserID, List.map_cons, List.map_nil, hstore j] at hsave
    simp at hsave
  · rw [microsoft_GetEmails_eq] at hget
    simp only [Prod.mk.injEq, Except.ok.injEq] at hget
    obtain ⟨h1, h2⟩ := hget
    subst h1 h2
    rw [hmap] at hj
    cases hj
    rw [stampUserID, List.map_cons, List.map_nil, hstore i] at hsave
    simp only [Prod.mk.injEq, true_and] at hsave
    have hw2 : w2.db = { w.db with emails := [microsoftRow env tenantID i w.uuids w.ticks] } := by
      rw [← hsave]
    have hu2 : w.uuids ≤ w2.uuids := by
      rw [← hsave]
      simp
    rw [h]
    obtain ⟨h1, h2, h3⟩ := microsoft_loop_conflict eng env tenantID userMap lastSyncTime
      { w.db with emails := [microsoftRow env tenantID i w.uuids w.ticks] } hworks
      ⟨_, List.mem_singleton.mpr rfl, rfl, rfl, rfl⟩ rest w2 (total + _) hw2
    exact ⟨h1, h2, le_trans hu2 h3⟩

/-- The first sync from empty storage, when the two fetched users violate no
constraint and the first clock reading is in range, succeeds and stores the two
users and one email row. -/
theorem firstSync_spec (eng : Engine) (env : Env) (tenantID : UUID)
    (hfresh : firstViolation [] (microsoftFetch env tenantID 0) = none)
    (hrange : eng.timestampInRange (env.timeNow 0 + (-1 * Hour)) = true) :
    (firstSync eng env tenantID).err = none ∧
    (∃ i, (firstSync eng env tenantID).final.db =
      { users := microsoftFetch env tenantID 0,
        emails := [microsoftRow env tenantID i 4 0], fault := none }) ∧
    4 ≤ (firstSync eng env tenantID).final.uuids := by
  have hsync : (duckDB eng).GetLastSyncTime tenantID ProviderMicrosoft emptyWorld =
      (.ok zeroTime, emptyWorld) := rfl
  have hrun := SyncTenant_loop (NewService env (duckDB eng)) (NewMicrosoftProvider env)
    tenantID ProviderMicrosoft emptyWorld emptyWorld _ _ _ zeroTime _ _
    (NewService_microsoft env (duckDB eng)) hsync
    (microsoft_GetUsers_eq env tenantID emptyWorld)
    (duckDB_SaveUsers_fresh eng _ _ rfl hfresh)
    (duckDB_GetUsersByTenant_works eng tenantID _ rfl)
  have hres : ∃ i, buildUserMap
      (List.filter (fun u => decide (u.TenantID = tenantID)) (microsoftFetch env tenantID 0))
      (env.uuidString (env.uuidNew 0)) = some i := by
    rw [← Option.ne_none_iff_exists']
    intro hnone
    rw [buildUserMap_eq_none_iff] at hnone
    refine hnone (microsoftFirstUser env tenantID 0) ?_ rfl
    simp [microsoftFetch, microsoftFirstUser]
  obtain ⟨i, hi⟩ := hres
  obtain ⟨h1, h2, h3⟩ := microsoft_loop_first eng env tenantID _ zeroTime
    (microsoftFirstUser env tenantID 0) [microsoftSecondUser env tenantID 0]
    { db := { users := microsoftFetch env tenantID 0, emails := [], fault := none },
      uuids := 4, ticks := 0 } 0 i rfl rfl hrange hi
  unfold firstSync
  rw [hrun]
  exact ⟨h1, ⟨i, h2⟩, h3⟩

/-- Fresh identifiers with distinct texts: the first fetch violates no
constraint of the empty table. -/
theorem firstViolation_first (env : Env) (tenantID : UUID)
    (hnew : Function.Injective env.uuidNew) (hstr : Function.Injective env.uuidString) :
    firstViolation [] (microsoftFetch env tenantID 0) = none := by
  simp [firstViolation, microsoftFetch, microsoftFirstUser, microsoftSecondUser, userConflict,
    hnew.eq_iff, hstr.eq_iff]

/-- Fresh identifiers with distinct texts: a later fetch violates no constraint
against the users of the first fetch. -/
theorem firstViolation_second (env : Env) (tenantID : UUID) (k : Nat) (hk : 4 ≤ k)
    (hnew : Function.Injective env.uuidNew) (hstr : Function.Injective env.uuidString) :
    firstViolation (microsoftFetch env tenantID 0) (microsoftFetch env tenantID k) = none := by
  have e1 : k + 2 ≠ 2 := by omega
  have e2 : k + 2 ≠ 3 := by omega
  have e3 : k + 3 ≠ 2 := by omega
  have e4 : k + 3 ≠ 3 := by omega
  have e5 : k ≠ 0 := by omega
  have e6 : k ≠ 1 := by omega
  have e7 : k + 1 ≠ 0 := by omega
  have e8 : k + 1 ≠ 1 := by omega
  have e9 : k + 3 ≠ k + 2 := by omega
  have e10 : k + 1 ≠ k := by omega
  have e11 : (2 : Nat) ≠ k + 2 := by omega
  have e12 : (3 : Nat) ≠ k + 2 := by omega
  have e13 : (2 : Nat) ≠ k + 3 := by omega
  have e14 : (3 : Nat) ≠ k + 3 := by omega
  have e15 : (0 : Nat) ≠ k := by omega
  have e16 : (1 : Nat) ≠ k := by omega
  have e17 : k + 2 ≠ k + 3 := by omega
  have e18 : k ≠ k + 1 := by omega
  simp [firstViolation, microsoftFetch, microsoftFirstUser, microsoftSecondUser, userConflict,
    hnew.eq_iff, hstr.eq_iff, e1, e2, e3, e4, e5, e6, e7, e8, e9, e10, e11, e12, e13, e14,
    e15, e16, e17, e18]

theorem demoEnv_uuidString_injective : Function.Injective demoEnv.uuidString := by
  intro a b h
  have hlen := congrArg String.length h
  simpa [demoEnv] using hlen

/-- C8 as stated fails: with identifiers 0, 1, 2, ... generated in turn, the
second sync of tenant 7 leaves 4 users in storage, not 2. -/
theorem resync_counterexample :
    (firstSync demoEngine demoEnv 7).final.db.users.length = 2 ∧
    (secondSync demoEngine demoEnv 7).final.db.users.length = 4 ∧
    ¬ ((secondSync demoEngine demoEnv 7).final.db.users.length = 2 ∧
       (secondSync demoEngine demoEnv 7).final.db.emails.length = 1 ∧
       (duckDBRepo.GetLastSyncTime (secondSync demoEngine demoEnv 7).final.db 7
          ProviderMicrosoft).1 =
         (duckDBRepo.GetLastSyncTime (firstSync demoEngine demoEnv 7).final.db 7
          ProviderMicrosoft).1) := by
  decide

/-- C8 amended: from empty storage of the DuckDB repository, with generated
identifiers pairwise distinct and printing differently and the first received
instant in the range of the engine, running `SyncTenant(T, Microsoft)` with the
built-in provider and then running it again succeeds both times and leaves
exactly 4 users in storage, 2 stored by each run (the built-in provider gives its
users new external IDs at every fetch), and exactly 1 email, the row the first run
stored; `GetLastSyncTime(T, Microsoft)` after the second run equals its value
after the first run, the received instant of that email truncated to
microseconds. -/
theorem resync_microsoft (eng : Engine) (env : Env) (tenantID : UUID)
    (hnew : Function.Injective env.uuidNew) (hstr : Function.Injective env.uuidString)
    (hrange : eng.timestampInRange (env.timeNow 0 - Hour) = true) :
    (firstSync eng env tenantID).err = none ∧ (secondSync eng env tenantID).err = none ∧
    (firstSync eng env tenantID).final.db.users.length = 2 ∧
    (secondSync eng env tenantID).final.db.users.length = 4 ∧
    (firstSync eng env tenantID).final.db.emails.length = 1 ∧
    (secondSync eng env tenantID).final.db.emails =
      (firstSync eng env tenantID).final.db.emails ∧
    (duckDBRepo.GetLastSyncTime (secondSync eng env tenantID).final.db tenantID
        ProviderMicrosoft).1 =
      (duckDBRepo.GetLastSyncTime (firstSync eng env tenantID).final.db tenantID
        ProviderMicrosoft).1 ∧
    (duckDBRepo.GetLastSyncTime (firstSync eng env tenantID).final.db tenantID
        ProviderMicrosoft).1 = .ok (truncMicro (env.timeNow 0 - Hour)) := by
  have hsub : env.timeNow 0 - Hour = env.timeNow 0 + (-1 * Hour) := by ring
  rw [hsub] at hrange ⊢
  obtain ⟨herr1, ⟨i, hdb1⟩, huuids1⟩ := firstSync_spec eng env tenantID
    (firstViolation_first env tenantID hnew hstr) hrange
  have hworks1 : (firstSync eng env tenantID).final.db.fault = none := by rw [hdb1]
  have hstored1 : ∃ r ∈ (firstSync eng env tenantID).final.db.emails,
      r.tenant_id = tenantID ∧ r.external_message_id = "msft-123" ∧
      r.provider = ProviderMicrosoft := by
    rw [hdb1]
    exact ⟨_, List.mem_singleton.mpr rfl, rfl, rfl, rfl⟩
  have hfresh2 : firstViolation (firstSync eng env tenantID).final.db.users
      (microsoftFetch env tenantID (firstSync eng env tenantID).final.uuids) = none := by
    rw [hdb1]
    exact firstViolation_second env tenantID _ huuids1 hnew hstr
  obtain ⟨herr2, hdb2, _⟩ := SyncTenant_microsoft_stored eng env tenantID
    (firstSync eng env tenantID).final hworks1 hstored1 hfresh2
  have hemails2 : (secondSync eng env tenantID).final.db.emails =
      (firstSync eng env tenantID).final.db.emails := by
    unfold secondSync
    rw [hdb2]
  have hworks2 : (secondSync eng env tenantID).final.db.fault = none := by
    unfold secondSync
    rw [hdb2]
    exact hworks1
  refine ⟨herr1, herr2, by rw [hdb1]; rfl, ?_, by rw [hdb1]; rfl, hemails2, ?_, ?_⟩
  · unfold secondSync
    rw [hdb2, hdb1]
    simp [microsoftFetch]
  · exact GetLastSyncTime_congr (firstSync eng env tenantID).final.db _ tenantID
      ProviderMicrosoft hworks1 hworks2 (by simp only [emailsOf, hemails2])
  · rw [hdb1, GetLastSyncTime_eq _ _ _ rfl]
    simp [emailsOf, microsoftRow, sqlMax, truncMicro]

/-- Instance of C8 amended: tenant 7 with the identifiers 0, 1, 2, ... and a
clock that reads 123456789 nanoseconds past ten hours; the watermark is the
email's instant without its last 789 nanoseconds. -/
theorem resync_microsoft_witness :
    ((firstSync demoEngine nanoEnv 7).err = none ∧
      (secondSync demoEngine nanoEnv 7).err = none ∧
      (firstSync demoEngine nanoEnv 7).final.db.users.length = 2 ∧
      (secondSync demoEngine nanoEnv 7).final.db.users.length = 4 ∧
      (firstSync demoEngine nanoEnv 7).final.db.emails.length = 1 ∧
      (secondSync demoEngine nanoEnv 7).final.db.emails =
        (firstSync demoEngine nanoEnv 7).final.db.emails ∧
      (duckDBRepo.GetLastSyncTime (secondSync demoEngine nanoEnv 7).final.db 7
          ProviderMicrosoft).1 =
        (duckDBRepo.GetLastSyncTime (firstSync demoEngine nanoEnv 7).final.db 7
          ProviderMicrosoft).1 ∧
      (duckDBRepo.GetLastSyncTime (firstSync demoEngine nanoEnv 7).final.db 7
          ProviderMicrosoft).1 = .ok (truncMicro (nanoEnv.timeNow 0 - Hour))) ∧
    (duckDBRepo.GetLastSyncTime (secondSync demoEngine nanoEnv 7).final.db 7
      ProviderMicrosoft).1 = .ok (9 * Hour + 123456000) :=
  ⟨resync_microsoft demoEngine nanoEnv 7 Function.injective_id demoEnv_uuidString_injective
    (by decide), by decide⟩

/-! ## Watermark pass-through -/

/-- The fetched users that resolve are those with an entry in the mapping. -/
theorem filter_resolves_eq (dbUsers users : List User) :
    users.filter (resolves dbUsers) =
      users.filter (fun u => (buildUserMap dbUsers u.ExternalUserID).isSome) := by
  apply List.filter_congr
  intro u _
  cases hr : resolves dbUsers u with
  | false => simp [(resolves_eq_false_iff dbUsers u).mp hr]
  | true =>
    cases hm : buildUserMap dbUsers u.ExternalUserID with
    | none => rw [(resolves_eq_false_iff dbUsers u).mpr hm] at hr; cases hr
    | some i => rfl

/-- The `GetEmails` calls of the loop are made, in order, for the fetched users
that resolve, one call each; when the loop returns nil none of them is left out. -/
theorem syncUserEmails_fetch_order {σ : Type} (repo : Repository σ)
    (client : ProviderClient σ) (tenantID : UUID) (userMap : String → Option UUID)
    (lastSyncTime : Time) (users : List User) :
    ∀ (w : σ) (total : Nat), ∃ remaining : List String,
      (users.filter (fun u => (userMap u.ExternalUserID).isSome)).map User.ExternalUserID =
        (emailFetches (syncUserEmails repo client tenantID userMap lastSyncTime users w
          total).events).map Prod.fst ++ remaining ∧
      ((syncUserEmails repo client tenantID userMap lastSyncTime users w total).err = none →
        remaining = []) := by
  induction users with
  | nil =>
    intro w total
    rw [syncUserEmails_nil]
    exact ⟨[], by simp [Run.events], fun _ => rfl⟩
  | cons u rest ih =>
    intro w total
    rcases syncUserEmails_cons repo client tenantID userMap lastSyncTime u rest w total with
      ⟨hnone, h⟩ | ⟨i, err, w1, hmap, _, h⟩ | ⟨i, w1, hmap, _, h⟩ |
      ⟨i, emails, w1, err, w2, hmap, _, _, _, h⟩ | ⟨i, emails, w1, w2, hmap, _, _, _, h⟩
    · rw [h]
      obtain ⟨remaining, h1, h2⟩ := ih w total
      exact ⟨remaining, by simpa [List.filter_cons, hnone] using h1, h2⟩
    · rw [h]
      obtain ⟨remaining, h1, h2⟩ := ih w1 total
      exact ⟨remaining, by simp [List.filter_cons, hmap, h1], by simpa using h2⟩
    · rw [h]
      obtain ⟨remaining, h1, h2⟩ := ih w1 total
      exact ⟨remaining, by simp [List.filter_cons, hmap, h1], by simpa using h2⟩
    · rw [h]
      refine ⟨(rest.filter (fun u => (userMap u.ExternalUserID).isSome)).map
        User.ExternalUserID, by simp [List.filter_cons, hmap, Run.events], ?_⟩
      intro herr
      cases herr
    · rw [h]
      obtain ⟨remaining, h1, h2⟩ := ih w2 (total + emails.length)
      exact ⟨remaining, by simp [List.filter_cons, hmap, h1], by simpa using h2⟩

/-- With a registered provider, the first call of a run is `GetLastSyncTime` on
the tenant and provider of the run, no other `GetLastSyncTime` follows, and the
`GetEmails` calls carry what it returned and go through the resolving fetched
users in order. -/
theorem SyncTenant_watermark_shape {σ : Type} (s : Service σ)
    (client : ProviderClient σ) (tenantID : UUID) (provider : Provider) (w : σ)
    (hclient : s.providers provider = some client) :
    ∃ rest : List Event,
      (SyncTenant s tenantID provider w).events =
        .GetLastSyncTime tenantID provider (s.repo.GetLastSyncTime tenantID provider w).1 ::
          rest ∧
      (∀ ev ∈ rest, ∀ t p r, ev ≠ .GetLastSyncTime t p r) ∧
      (∀ t externalUserID receivedAfter r,
        .GetEmails t externalUserID receivedAfter r ∈ rest →
          t = tenantID ∧
          (s.repo.GetLastSyncTime tenantID provider w).1 = .ok receivedAfter) ∧
      (∀ users dbUsers, .GetUsers tenantID (.ok users) ∈ rest →
        .GetUsersByTenant tenantID (.ok dbUsers) ∈ rest →
        ∃ remaining : List String,
          (users.filter (resolves dbUsers)).map User.ExternalUserID =
            (emailFetches rest).map Prod.fst ++ remaining ∧
          ((SyncTenant s tenantID provider w).err = none → remaining = [])) := by
  rcases SyncTenant_cases s client tenantID provider w hclient with
    ⟨err, w1, hs, h⟩ | ⟨ts, w1, err, w2, hs, _, h⟩ |
    ⟨ts, w1, users, w2, err, w3, hs, _, _, h⟩ |
    ⟨ts, w1, users, w2, w3, err, w4, hs, _, _, _, h⟩ |
    ⟨ts, w1, users, w2, w3, dbUsers, w4, hs, _, _, _, h⟩
  · rw [h, hs]
    exact ⟨[], rfl, by simp, by simp, by simp⟩
  · rw [h, hs]
    exact ⟨[.GetUsers tenantID (.error err)], rfl, by simp, by simp, by simp⟩
  · rw [h, hs]
    exact ⟨[.GetUsers tenantID (.ok users), .SaveUsers users (some err)], rfl,
      by simp, by simp, by simp⟩
  · rw [h, hs]
    exact ⟨[.GetUsers tenantID (.ok users), .SaveUsers users none,
      .GetUsersByTenant tenantID (.error err)], rfl, by simp, by simp, by simp⟩
  · rw [h, hs]
    have hloop := syncUserEmails_events s.repo client tenantID (buildUserMap dbUsers) ts
      users w4 0
    refine ⟨[.GetUsers tenantID (.ok users), .SaveUsers users none,
      .GetUsersByTenant tenantID (.ok dbUsers)] ++
      (syncUserEmails s.repo client tenantID (buildUserMap dbUsers) ts users w4 0).events,
      by simp, ?_, ?_, ?_⟩
    · intro ev hev t p r heq
      simp only [List.cons_append, List.nil_append, List.mem_cons] at hev
      subst heq
      rcases hev with hev | hev | hev | hev
      · cases hev
      · cases hev
      · cases hev
      · rcases hloop _ hev with ⟨_, _, _, _, h1⟩ | ⟨_, _, h1⟩
        · cases h1
        · cases h1
    · intro t externalUserID receivedAfter r hev
      simp only [List.cons_append, List.nil_append, List.mem_cons] at hev
      rcases hev with hev | hev | hev | hev
      · cases hev
      · cases hev
      · cases hev
      · rcases hloop _ hev with ⟨u, hu, res, _, h1⟩ | ⟨_, _, h1⟩
        · cases h1
          exact ⟨rfl, rfl⟩
        · cases h1
    · intro users1 dbUsers1 hu hd
      simp only [List.cons_append, List.nil_append, List.mem_cons] at hu hd
      have hu1 : users1 = users := by
        rcases hu with hu | hu | hu | hu
        · cases hu; rfl
        · cases hu
        · cases hu
        · rcases hloop _ hu with ⟨_, _, _, _, h1⟩ | ⟨_, _, h1⟩
          · cases h1
          · cases h1
      have hd1 : dbUsers1 = dbUsers := by
        rcases hd with hd | hd | hd | hd
        · cases hd
        · cases hd
        · cases hd; rfl
        · rcases hloop _ hd with ⟨_, _, _, _, h1⟩ | ⟨_, _, h1⟩
          · cases h1
          · cases h1
      subst hu1 hd1
      obtain ⟨remaining, h1, h2⟩ := syncUserEmails_fetch_order s.repo client tenantID
        (buildUserMap dbUsers1) ts users1 w4 0
      refine ⟨remaining, ?_, by simpa using h2⟩
      rw [filter_resolves_eq, h1]
      simp [emailFetches]

/-- C6: in every run of `SyncTenant(tenant, provider)` on a registered provider,
`GetLastSyncTime` is called exactly once, with (tenant, provider), as the first
call and so before any ProviderClient call; every `GetEmails` call of the run
receives the same tenant ID and as `receivedAfter` exactly the timestamp that
`GetLastSyncTime` returned; the `GetEmails` calls are made in fetched order, one
for each fetched user that resolves, with that user's `ExternalUserID` (all of
them when the run returns nil).  With the DuckDB repository and no persisted
email of the tenant and provider, that timestamp is the zero timestamp. -/
theorem SyncTenant_watermark_pass_through :
    (∀ {σ : Type} (s : Service σ) (client : ProviderClient σ) (tenantID : UUID)
      (provider : Provider) (w : σ), s.providers provider = some client →
      ∃ (res : Except GoError Time) (rest : List Event),
        (SyncTenant s tenantID provider w).events =
          .GetLastSyncTime tenantID provider res :: rest ∧
        res = (s.repo.GetLastSyncTime tenantID provider w).1 ∧
        (∀ ev ∈ rest, ∀ t p r, ev ≠ .GetLastSyncTime t p r) ∧
        (∀ t externalUserID receivedAfter r,
          .GetEmails t externalUserID receivedAfter r ∈ rest →
            t = tenantID ∧ res = .ok receivedAfter) ∧
        (∀ users dbUsers, .GetUsers tenantID (.ok users) ∈ rest →
          .GetUsersByTenant tenantID (.ok dbUsers) ∈ rest →
          ∃ remaining : List String,
            (users.filter (resolves dbUsers)).map User.ExternalUserID =
              (emailFetches rest).map Prod.fst ++ remaining ∧
            ((SyncTenant s tenantID provider w).err = none → remaining = []))) ∧
    (∀ (eng : Engine) (s : Service World) (client : ProviderClient World) (tenantID : UUID)
      (provider : Provider) (w : World), s.providers provider = some client →
      s.repo = duckDB eng → w.db.fault = none →
      (∀ r ∈ w.db.emails, ¬ (r.tenant_id = tenantID ∧ r.provider = provider)) →
      ∀ t externalUserID receivedAfter r,
        .GetEmails t externalUserID receivedAfter r ∈ (SyncTenant s tenantID provider w).events →
          receivedAfter = zeroTime) := by
  refine ⟨?_, ?_⟩
  · intro σ s client tenantID provider w hclient
    obtain ⟨rest, h1, h2, h3, h4⟩ :=
      SyncTenant_watermark_shape s client tenantID provider w hclient
    exact ⟨_, rest, h1, rfl, h2, h3, h4⟩
  · intro eng s client tenantID provider w hclient hrepo hworks hnone t externalUserID
      receivedAfter r hmem
    obtain ⟨rest, h1, _, h3, _⟩ :=
      SyncTenant_watermark_shape s client tenantID provider w hclient
    rw [h1] at hmem
    rcases List.mem_cons.mp hmem with hm | hm
    · cases hm
    · have hres := (h3 t externalUserID receivedAfter r hm).2
      have hempty : emailsOf w.db tenantID provider = [] := by
        rw [List.eq_nil_iff_forall_not_mem]
        intro row hrow
        rw [mem_emailsOf] at hrow
        exact hnone row hrow.1 hrow.2
      have hzero : (s.repo.GetLastSyncTime tenantID provider w).1 = .ok zeroTime := by
        rw [hrepo]
        simp only [duckDB, GetLastSyncTime_eq w.db tenantID provider hworks, hempty]
        rfl
      rw [hzero] at hres
      cases hres
      rfl

/-- Instance of C6: `TestService_SyncTenant_Success`, where the mock repository
returns the zero time and `GetEmails` is expected with the zero time; and the
built-in Microsoft sync from empty storage, whose `GetEmails` calls receive the
zero timestamp. -/
theorem SyncTenant_watermark_pass_through_witness :
    (∃ (res : Except GoError Time) (rest : List Event),
      (SyncTenant (mockService successAnswers ProviderGoogle) 7 ProviderGoogle
        emptyWorld).events = .GetLastSyncTime 7 ProviderGoogle res :: rest ∧
      res = ((mockService successAnswers ProviderGoogle).repo.GetLastSyncTime 7
        ProviderGoogle emptyWorld).1 ∧
      (∀ ev ∈ rest, ∀ t p r, ev ≠ .GetLastSyncTime t p r) ∧
      (∀ t externalUserID receivedAfter r,
        .GetEmails t externalUserID receivedAfter r ∈ rest →
          t = 7 ∧ res = .ok receivedAfter) ∧
      (∀ users dbUsers, .GetUsers 7 (.ok users) ∈ rest →
        .GetUsersByTenant 7 (.ok dbUsers) ∈ rest →
        ∃ remaining : List String,
          (users.filter (resolves dbUsers)).map User.ExternalUserID =
            (emailFetches rest).map Prod.fst ++ remaining ∧
          ((SyncTenant (mockService successAnswers ProviderGoogle) 7 ProviderGoogle
            emptyWorld).err = none → remaining = []))) ∧
    (SyncTenant (mockService successAnswers ProviderGoogle) 7 ProviderGoogle
      emptyWorld).events =
      [.GetLastSyncTime 7 ProviderGoogle (.ok zeroTime),
       .GetUsers 7 (.ok [testUser 1 "ext-123"]), .SaveUsers [testUser 1 "ext-123"] none,
       .GetUsersByTenant 7 (.ok [testUser 1 "ext-123"]),
       .GetEmails 7 "ext-123" zeroTime (.ok [testEmail 11 1 "" 0]),
       .SaveEmails [testEmail 11 1 "" 0] none] ∧
    (∀ t externalUserID receivedAfter r,
      .GetEmails t externalUserID receivedAfter r ∈
        (SyncTenant (NewService demoEnv (duckDB demoEngine)) 7 ProviderMicrosoft
          emptyWorld).events → receivedAfter = zeroTime) :=
  ⟨SyncTenant_watermark_pass_through.1 (mockService successAnswers ProviderGoogle)
      (MockProviderClient successAnswers) 7 ProviderGoogle emptyWorld rfl,
    by rfl,
    SyncTenant_watermark_pass_through.2 demoEngine (NewService demoEnv (duckDB demoEngine))
      (NewMicrosoftProvider demoEnv) 7 ProviderMicrosoft emptyWorld rfl rfl rfl (by decide)⟩

/-! ## The last user with an external ID gives the stamp -/

/-- C11: the identity mapping of `SyncTenant` is keyed by external user ID alone.
It reads only the external ID and the internal ID of the users it is built from,
and the entry of a key is the internal ID of the last user with that external ID.
`duckDBRepo.GetUsersByTenant` returns every stored user of the tenant, whatever
its provider.  So in every run a batch passed to `SaveEmails` carries the internal
ID of the last user, in the order `GetUsersByTenant` returned, that shares the
external ID the emails were fetched for; and that user need not belong to the
provider being synced: when `GetUsersByTenant` returns a Google and then a
Microsoft user of tenant 7 under the external ID "shared", a Google sync stamps
the fetched email with the Microsoft user's ID 202. -/
theorem SyncTenant_mapping_last_user :
    (∀ l1 l2 : List User,
      l1.map (fun u => (u.ExternalUserID, u.ID)) = l2.map (fun u => (u.ExternalUserID, u.ID)) →
        buildUserMap l1 = buildUserMap l2) ∧
    (∀ (pre : List User) (du : User) (post : List User),
      (∀ v ∈ post, v.ExternalUserID ≠ du.ExternalUserID) →
        buildUserMap (pre ++ du :: post) du.ExternalUserID = some du.ID) ∧
    (∀ (db : DB) (tenantID : UUID), db.fault = none →
      (duckDBRepo.GetUsersByTenant db tenantID).1 =
        .ok (db.users.filter (fun u => u.TenantID = tenantID))) ∧
    (∀ {σ : Type} (s : Service σ) (tenantID : UUID) (provider : Provider) (w : σ)
      (batch : List Email) (res : Option GoError),
      .SaveEmails batch res ∈ (SyncTenant s tenantID provider w).events →
        ∃ (lastSyncTime : Time) (users dbUsers : List User),
          .GetUsers tenantID (.ok users) ∈ (SyncTenant s tenantID provider w).events ∧
          .GetUsersByTenant tenantID (.ok dbUsers) ∈
            (SyncTenant s tenantID provider w).events ∧
          ∃ u ∈ users, ∃ emails,
            .GetEmails tenantID u.ExternalUserID lastSyncTime (.ok emails) ∈
              (SyncTenant s tenantID provider w).events ∧
            ∃ pre du post, dbUsers = pre ++ du :: post ∧
              du.ExternalUserID = u.ExternalUserID ∧
              (∀ v ∈ post, v.ExternalUserID ≠ u.ExternalUserID) ∧
              batch = emails.map (fun e => { e with UserID := du.ID })) ∧
    (.GetUsersByTenant 7 (.ok [sharedGoogleUser, sharedMicrosoftUser]) ∈
        (SyncTenant (mockService sharedAnswers ProviderGoogle) 7 ProviderGoogle
          emptyWorld).events ∧
      savedBatches (SyncTenant (mockService sharedAnswers ProviderGoogle) 7 ProviderGoogle
        emptyWorld).events = [[testEmail 11 202 "m-1" 100]] ∧
      sharedMicrosoftUser.ID = 202 ∧ sharedMicrosoftUser.Provider ≠ ProviderGoogle ∧
      sharedGoogleUser.ID ≠ 202) := by
  refine ⟨?_, ?_, ?_, ?_, ?_⟩
  · intro l1 l2 h
    rw [buildUserMap_eq_foldl_pairs l1, buildUserMap_eq_foldl_pairs l2, h]
  · intro pre du post hpost
    exact buildUserMap_last pre du post du.ExternalUserID rfl hpost
  · intro db tenantID hworks
    simp only [duckDBRepo.GetUsersByTenant, hworks]
  · intro σ s tenantID provider w batch res hsaved
    obtain ⟨ts, users, dbUsers, h1, h2, u, hu, emails, i, h3, h4, h5⟩ :=
      SyncTenant_saved_mapping s tenantID provider w batch res hsaved
    obtain ⟨pre, du, post, h6, h7, h8, h9⟩ :=
      buildUserMap_eq_some_last dbUsers u.ExternalUserID i h4
    subst h8
    exact ⟨ts, users, dbUsers, h1, h2, u, hu, emails, h3, pre, du, post, h6, h7, h9, h5⟩
  · decide

/-- Instance of C11: in the Google sync of tenant 7 where `GetUsersByTenant`
returns the two users that share the external ID "shared", the saved batch
carries the ID of the last of them, the Microsoft user. -/
theorem SyncTenant_mapping_last_user_witness :
    ∃ (lastSyncTime : Time) (users dbUsers : List User),
      .GetUsers 7 (.ok users) ∈
        (SyncTenant (mockService sharedAnswers ProviderGoogle) 7 ProviderGoogle
          emptyWorld).events ∧
      .GetUsersByTenant 7 (.ok dbUsers) ∈
        (SyncTenant (mockService sharedAnswers ProviderGoogle) 7 ProviderGoogle
          emptyWorld).events ∧
      ∃ u ∈ users, ∃ emails,
        .GetEmails 7 u.ExternalUserID lastSyncTime (.ok emails) ∈
          (SyncTenant (mockService sharedAnswers ProviderGoogle) 7 ProviderGoogle
            emptyWorld).events ∧
        ∃ pre du post, dbUsers = pre ++ du :: post ∧
          du.ExternalUserID = u.ExternalUserID ∧
          (∀ v ∈ post, v.ExternalUserID ≠ u.ExternalUserID) ∧
          [testEmail 11 202 "m-1" 100] = emails.map (fun e => { e with UserID := du.ID }) :=
  SyncTenant_mapping_last_user.2.2.2.1 (mockService sharedAnswers ProviderGoogle) 7
    ProviderGoogle emptyWorld [testEmail 11 202 "m-1" 100] none (by decide)

end EmailIngestion
